import Mathlib

/-!
Provider streaming and retry engine of `opencode` (xAI clients).

A shallow embedding of `internal/llm/provider/xai2.go` and
`internal/llm/provider/xai.go`, with the properties of the streaming
and retry engine stated and proved over it, and of the parts of
`internal/llm/agent/mcp-tools.go` and `internal/request/tracker.go` that
the engine's contract mentions.

Conventions of the embedding.

* A Go `string` is a Lean `String`; the library functions
  `strings.Contains` and `strings.ToLower` are given by their meaning on
  the rune list.  `strings.ToLower` maps every rune through
  `unicode.ToLower`; that rune map is the parameter `lower` of every
  definition that folds case, so that each theorem holds for whatever
  the Unicode tables say.  Concrete evaluations use `Char.toLower`, which
  agrees with `unicode.ToLower` on ASCII.
* A Go `int`/`int64` is an `Int`, wrapped to 64 bits where the source
  computes.
* A Go `error` is a value of `GoError`; `nil` is `none`.
* A goroutine that sends on a channel is the list of its effects in program
  order (`Effect`), with the way it ends (`Exit`); what the backend and the
  context do during an attempt is an input (`Attempt`).
* Methods and constants of the package that are declared outside the two
  source files (`openaiClient`, `maxRetries`) are parameters.
-/

namespace Opencode

/-! ## Strings -/

/-- Go `strings.HasPrefix`, on rune lists: `p` is an initial segment of `s`. -/
def hasPrefixChars : List Char → List Char → Bool
  | _, [] => true
  | [], _ :: _ => false
  | c :: cs, p :: ps => decide (c = p) && hasPrefixChars cs ps

/-- Go `strings.Contains`, on rune lists: scan `s` for the first position
at which `substr` starts. -/
def containsChars : List Char → List Char → Bool
  | [], substr => hasPrefixChars [] substr
  | c :: cs, substr => hasPrefixChars (c :: cs) substr || containsChars cs substr

/-- Go `strings.Contains(s, substr)`. -/
def stringsContains (s substr : String) : Bool :=
  containsChars s.data substr.data

/-- Go `strings.ToLower(s)`: every rune mapped through `unicode.ToLower`,
which is the parameter `lower`. -/
def stringsToLower (lower : Char → Char) (s : String) : String :=
  ⟨s.data.map lower⟩

/-- The mathematical notion the claims use: `p` occurs in `s` as a
contiguous substring. -/
def IsSubstring (p s : String) : Prop :=
  ∃ before after : List Char, s.data = before ++ p.data ++ after

/-! ## The content-error classifier -/

/-- Go `xai2ErrorPatterns` (xai2.go, lines 31-39). -/
def xai2ErrorPatterns : List String :=
  [ "try again",
    "rate limit",
    "too many requests",
    "please retry",
    "service unavailable",
    "quota exceeded",
    "temporarily unavailable" ]

/-- Go `xaiErrorPatterns` (xai.go, lines 40-48). -/
def xaiErrorPatterns : List String :=
  [ "try again",
    "rate limit",
    "too many requests",
    "please retry",
    "service unavailable",
    "quota exceeded",
    "temporarily unavailable" ]

/-- The loop `for _, pattern := range patterns { if strings.Contains(lowerContent, pattern) { return true } }; return false`. -/
def matchesAnyPattern (lowerContent : String) : List String → Bool
  | [] => false
  | pattern :: rest =>
    if stringsContains lowerContent pattern then true
    else matchesAnyPattern lowerContent rest

/-- Go `(*xai2Client).isErrorContent` (xai2.go, lines 377-389). -/
def xai2Client.isErrorContent (lower : Char → Char) (content : String) : Bool :=
  if content = "" then false
  else matchesAnyPattern (stringsToLower lower content) xai2ErrorPatterns

/-- Go `(*xaiClient).isErrorContent` (xai.go, lines 117-129). -/
def xaiClient.isErrorContent (lower : Char → Char) (content : String) : Bool :=
  if content = "" then false
  else matchesAnyPattern (stringsToLower lower content) xaiErrorPatterns

/-! ## Errors -/

/-- The Go `error` values the engine meets.  `errors.As` and `errors.Is`
walk the chain built by `wrapped`. -/
inductive GoError where
  /-- Go `*xai2ContentError` (xai2.go, lines 49-52). -/
  | xai2ContentError (statusCode : Int) (content : String)
  /-- Go `*xaiContentError` (xai.go, lines 30-33). -/
  | xaiContentError (statusCode : Int) (content : String)
  /-- Go `*openai.Error`: HTTP status, the text its `Error()` renders, and the
  values of the `Retry-After` header of its response. -/
  | apiError (statusCode : Int) (message : String) (retryAfter : List String)
  /-- Go `io.EOF`. -/
  | eof
  /-- Go `context.Canceled`. -/
  | contextCanceled
  /-- Go `context.DeadlineExceeded`. -/
  | deadlineExceeded
  /-- Go `errors.New(msg)`, or `fmt.Errorf` without `%w`. -/
  | errorString (msg : String)
  /-- Go `fmt.Errorf` with `%w`: text `msg`, unwrapping to `inner`. -/
  | wrapped (msg : String) (inner : GoError)
  deriving DecidableEq, Repr

/-- The `Error()` method. -/
def GoError.Error : GoError → String
  | .xai2ContentError statusCode content =>
    "xAI returned error as content (status " ++ toString statusCode ++ "): " ++ content
  | .xaiContentError _ content => "xAI returned error content: " ++ content
  | .apiError _ message _ => message
  | .eof => "EOF"
  | .contextCanceled => "context canceled"
  | .deadlineExceeded => "context deadline exceeded"
  | .errorString msg => msg
  | .wrapped msg _ => msg

/-- Go `errors.As(err, &xaiErr)` with `xaiErr *xai2ContentError`: the first
such error of the chain, as (status code, content). -/
def asXai2ContentError : GoError → Option (Int × String)
  | .xai2ContentError statusCode content => some (statusCode, content)
  | .wrapped _ inner => asXai2ContentError inner
  | _ => none

/-- Go `errors.As(err, &xaiErr)` with `xaiErr *xaiContentError`. -/
def asXaiContentError : GoError → Option (Int × String)
  | .xaiContentError statusCode content => some (statusCode, content)
  | .wrapped _ inner => asXaiContentError inner
  | _ => none

/-- Go `errors.As(err, &apierr)` with `apierr *openai.Error`: the status code
of the first API error of the chain. -/
def asAPIError : GoError → Option Int
  | .apiError statusCode _ _ => some statusCode
  | .wrapped _ inner => asAPIError inner
  | _ => none

/-- Go `errors.Is(err, io.EOF)`. -/
def errorsIsEOF : GoError → Bool
  | .eof => true
  | .wrapped _ inner => errorsIsEOF inner
  | _ => false

/-! ## Machine arithmetic -/

/-- Two's-complement wrap of an integer to `int64`. -/
def wrapInt64 (z : Int) : Int :=
  (z + 2 ^ 63) % 2 ^ 64 - 2 ^ 63

/-- Go `1 << n` at type `int`: a negative shift count is a run-time panic
(`none`); a count of 64 or more gives 0. -/
def shiftLeftOne (n : Int) : Option Int :=
  if n < 0 then none
  else if 64 ≤ n then some 0
  else some (wrapInt64 (2 ^ n.toNat))

/-- Number of binary digits of `n`, for `n < 2 ^ fuel`. -/
def bitLengthAux : Nat → Nat → Nat
  | 0, _ => 0
  | fuel + 1, n => if n = 0 then 0 else bitLengthAux fuel (n / 2) + 1

/-- Number of binary digits of `n` (for `n < 2 ^ 192`, which covers every
product of an `int64` magnitude with a 53-bit significand). -/
def bitLength (n : Nat) : Nat :=
  bitLengthAux 192 n

/-- IEEE-754 binary64 rounding (nearest, ties to even) of the natural number
`n` to 53 significant bits.  The rounding is invariant under scaling by a power
of two, so it also rounds `n / 2 ^ k`. -/
def float64Round (n : Nat) : Nat :=
  let e := bitLength n - 53
  let q := n / 2 ^ e
  let r := n % 2 ^ e
  if e = 0 then n
  else if 2 ^ e < 2 * r ∨ (2 * r = 2 ^ e ∧ q % 2 = 1) then (q + 1) * 2 ^ e
  else q * 2 ^ e

/-- The float64 nearest to the constant `0.2` is `float64Point2 / 2 ^ 54`. -/
def float64Point2 : Nat := 3602879701896397

/-- Go `int(float64(b) * 0.2)`: `b` converted to float64, multiplied in
float64 by the float64 constant 0.2, truncated toward zero. -/
def jitterOf (b : Int) : Int :=
  let significand := float64Round b.natAbs
  let product := float64Round (significand * float64Point2)
  let truncated : Int := ((product / 2 ^ 54 : Nat) : Int)
  if b < 0 then -truncated else truncated

/-! ## Retry policy -/

/-- Go `xai2MaxRetries` (xai2.go, line 25). -/
def xai2MaxRetries : Int := 8

/-- Go `quotaExceededPattern` (xai2.go, line 27). -/
def quotaExceededPattern : String := "credits or reached its monthly spending limit"

/-- The triple `(bool, int64, error)` returned by `shouldRetry`. -/
abbrev RetryDecision := Bool × Int × Option GoError

/-- Go `(*xai2Client).shouldRetry` (xai2.go, lines 327-374).  `none` is the
run-time panic of a negative shift count. -/
def xai2Client.shouldRetry (attempts : Int) (err : Option GoError) : Option RetryDecision :=
  if attempts > xai2MaxRetries then
    some (false, 0, some (.errorString
      ("maximum retry attempts reached: " ++ toString xai2MaxRetries ++ " retries")))
  else
    match err with
    | none => some (false, 0, none)
    | some e =>
      match asXai2ContentError e with
      | some _ =>
        match shiftLeftOne (attempts - 1) with
        | none => none
        | some shifted =>
          let backoffMs := wrapInt64 (2000 * shifted)
          let jitterMs := jitterOf backoffMs
          let retryMs := wrapInt64 (backoffMs + jitterMs)
          some (true, retryMs, none)
      | none =>
        match asAPIError e with
        | some statusCode =>
          if statusCode = 429 ∧ stringsContains e.Error quotaExceededPattern = true then
            some (false, 0, some (.errorString ("xAI quota exceeded: " ++ e.Error)))
          else if statusCode = 429 ∨ statusCode = 500 then
            match shiftLeftOne (attempts - 1) with
            | none => none
            | some shifted =>
              let backoffMs := wrapInt64 (2000 * shifted)
              some (true, backoffMs, none)
          else some (false, 0, some e)
        | none => some (false, 0, some e)

/-- Go `(*xaiClient).shouldRetry` (xai.go, lines 342-378).  The constant
`maxRetries` and the method `openaiClient.shouldRetry` it falls back to are
declared in files of the package that are not part of the sources at hand;
they are the parameters `maxRetries` and `openaiShouldRetry`. -/
def xaiClient.shouldRetry (maxRetries : Int)
    (openaiShouldRetry : Int → Option GoError → Option RetryDecision)
    (attempts : Int) (err : Option GoError) : Option RetryDecision :=
  match err with
  | none => openaiShouldRetry attempts none
  | some e =>
    match asXaiContentError e with
    | some _ =>
      if attempts > maxRetries then
        some (false, 0, some (.errorString
          ("maximum retry attempts reached for xAI rate limit: " ++ toString maxRetries ++
            " retries")))
      else
        match shiftLeftOne (attempts - 1) with
        | none => none
        | some shifted =>
          let backoffMs := wrapInt64 (2000 * shifted)
          let jitterMs := jitterOf backoffMs
          let retryMs := wrapInt64 (backoffMs + jitterMs)
          some (true, retryMs, none)
    | none =>
      match asAPIError e with
      | some statusCode =>
        if statusCode = 429 ∧
            stringsContains e.Error "credits or reached its monthly spending limit" = true then
          some (false, 0, some (.errorString ("xAI quota exceeded: " ++ e.Error)))
        else openaiShouldRetry attempts (some e)
      | none => openaiShouldRetry attempts (some e)

/-! ## Events and responses -/

/-- Go `message.FinishReason`: the four values the xAI clients name, and any
other value of that string type by its text. -/
inductive FinishReason where
  | endTurn
  | maxTokens
  | toolUse
  | permissionDenied
  | other (value : String)
  deriving DecidableEq, Repr

/-- Go `message.ToolCall`. -/
structure ToolCall where
  id : String
  name : String
  input : String
  type : String
  finished : Bool
  deriving DecidableEq, Repr

/-- Go `TokenUsage`. -/
structure TokenUsage where
  inputTokens : Int
  outputTokens : Int
  cacheCreationTokens : Int
  cacheReadTokens : Int
  deriving DecidableEq, Repr

/-- Go `ProviderResponse`. -/
structure ProviderResponse where
  content : String
  toolCalls : List ToolCall
  usage : TokenUsage
  finishReason : FinishReason
  deriving DecidableEq, Repr

/-- Go `EventType`: the three kinds the engine itself produces, and every
other kind (tool-call deltas and the like) by its name. -/
inductive EventType where
  | contentDelta
  | complete
  | error
  | other (name : String)
  deriving DecidableEq, Repr

/-- Go `ProviderEvent`, with the fields the engine sets. -/
structure ProviderEvent where
  type : EventType
  content : String
  response : Option ProviderResponse
  error : Option GoError
  deriving DecidableEq, Repr

/-- The event `ProviderEvent{Type: EventContentDelta, Content: text}`. -/
def ProviderEvent.delta (text : String) : ProviderEvent :=
  { type := .contentDelta, content := text, response := none, error := none }

/-- The event `ProviderEvent{Type: EventComplete, Response: &response}`. -/
def ProviderEvent.completed (response : ProviderResponse) : ProviderEvent :=
  { type := .complete, content := "", response := some response, error := none }

/-- The event `ProviderEvent{Type: EventError, Error: err}`. -/
def ProviderEvent.failed (err : Option GoError) : ProviderEvent :=
  { type := .error, content := "", response := none, error := err }

/-- A terminal event is a `Complete` or an `Error`. -/
def ProviderEvent.isTerminal (e : ProviderEvent) : Bool :=
  match e.type with
  | .complete => true
  | .error => true
  | _ => false

/-! ## The backend's completion, as the accumulator holds it -/

/-- A tool call of `openai.ChatCompletionMessage.ToolCalls`. -/
structure CompletionToolCall where
  id : String
  functionName : String
  functionArguments : String
  deriving DecidableEq, Repr

/-- A choice of `openai.ChatCompletion.Choices`. -/
structure CompletionChoice where
  finishReason : String
  messageContent : String
  messageToolCalls : List CompletionToolCall
  deriving DecidableEq, Repr

/-- Go `openai.ChatCompletion`, with the fields the clients read. -/
structure ChatCompletion where
  choices : List CompletionChoice
  promptTokens : Int
  completionTokens : Int
  deriving DecidableEq, Repr

/-- A choice of a streamed chunk: `choice.Delta.Content`. -/
structure ChunkChoice where
  deltaContent : String
  deriving DecidableEq, Repr

/-- Go `openai.ChatCompletionChunk`: its `Choices`. -/
structure Chunk where
  choices : List ChunkChoice
  deriving DecidableEq, Repr

/-- Go `(*xai2Client).finishReason` (xai2.go, lines 512-525). -/
def xai2Client.finishReason (reason : String) : FinishReason :=
  if reason = "stop" then .endTurn
  else if reason = "length" then .maxTokens
  else if reason = "tool_calls" ∨ reason = "function_call" then .toolUse
  else if reason = "content_filter" then .permissionDenied
  else .endTurn

/-- Go `(*xai2Client).toolCalls` (xai2.go, lines 527-543). -/
def xai2Client.toolCalls (completion : ChatCompletion) : List ToolCall :=
  match completion.choices with
  | [] => []
  | first :: _ =>
    if first.messageToolCalls.length = 0 then []
    else first.messageToolCalls.map fun tc =>
      { id := tc.id, name := tc.functionName, input := tc.functionArguments,
        type := "function", finished := true }

/-- Go `(*xai2Client).usage` (xai2.go, lines 545-553). -/
def xai2Client.usage (completion : ChatCompletion) : TokenUsage :=
  { inputTokens := completion.promptTokens,
    outputTokens := completion.completionTokens,
    cacheCreationTokens := 0,
    cacheReadTokens := 0 }

/-! ## The request tracker -/

/-- Go `request.RequestInfo` (tracker.go, lines 8-12). -/
structure RequestInfo where
  provider : String
  model : String
  url : String
  deriving DecidableEq, Repr

/-- What a run of the streaming goroutine does to the outside world, in
program order.  Debug logging and `logging.WarnPersist` are left out. -/
inductive Effect where
  /-- Call of `x.client.Chat.Completions.NewStreaming`: attempt `attempt` opens
  a network request. -/
  | newStreaming (attempt : Int)
  /-- Call of `x.client.Chat.Completions.New`: the network request of the
  non-streaming call. -/
  | newCompletion
  /-- The send `eventChan <- event`. -/
  | send (event : ProviderEvent)
  /-- Call of `request.Clear()`. -/
  | requestClear
  /-- Call of `request.SetCurrent(provider, model, url)`. -/
  | requestSetCurrent (info : RequestInfo)
  /-- The `select` of the backoff wait is entered with a timer of `ms`
  milliseconds. -/
  | backoffWait (ms : Int)
  /-- The deferred `close(eventChan)`. -/
  | closeChan
  deriving DecidableEq, Repr

/-- How the goroutine ends. -/
inductive Exit where
  /-- It returns. -/
  | returned
  /-- A run-time panic: index out of range, or negative shift count. -/
  | panicked
  /-- The model's iteration bound was reached before the loop ended. -/
  | outOfFuel
  deriving DecidableEq, Repr

/-- A run: its effects in order, and how it ended. -/
structure Run where
  trace : List Effect
  exit : Exit
  deriving DecidableEq, Repr

/-- The run `r` preceded by the effects `effects`. -/
def Run.after (effects : List Effect) (r : Run) : Run :=
  { trace := effects ++ r.trace, exit := r.exit }

/-- The events of a trace that the caller receives on the channel, in order. -/
def sentEvents : List Effect → List ProviderEvent
  | [] => []
  | .send event :: rest => event :: sentEvents rest
  | _ :: rest => sentEvents rest

/-- The events the caller receives during a run. -/
def Run.events (r : Run) : List ProviderEvent :=
  sentEvents r.trace

/-- The texts of the `ContentDelta` events of an event list, in order. -/
def deltaTexts : List ProviderEvent → List String
  | [] => []
  | event :: rest =>
    if event.type = .contentDelta then event.content :: deltaTexts rest
    else deltaTexts rest

/-- Concatenation of a list of strings, left to right. -/
def concatStrings : List String → String
  | [] => ""
  | s :: rest => s ++ concatStrings rest

/-- The client fields the streaming call reads: `providerOptions.model.Provider`,
`providerOptions.model.APIModel` and `options.baseURL`. -/
structure xai2Client where
  provider : String
  apiModel : String
  baseURL : String
  deriving DecidableEq, Repr

/-- The argument of every `request.SetCurrent` call of the client. -/
def xai2Client.requestInfo (x : xai2Client) : RequestInfo :=
  { provider := x.provider, model := x.apiModel, url := x.baseURL }

/-- What the outside world does during one attempt of the retry loop. -/
structure Attempt where
  /-- The chunks `openaiStream.Next()`/`Current()` deliver, in order. -/
  chunks : List Chunk
  /-- The value of `openaiStream.Err()` once `Next()` has returned false. -/
  err : Option GoError
  /-- The field `acc.ChatCompletion` once every chunk has been added. -/
  acc : ChatCompletion
  /-- Whether `ctx.Done()` wins the `select` of the backoff wait that follows
  the attempt, and then the value of `ctx.Err()`. -/
  ctxDone : Option GoError

/-- The state of the chunk loop: what was sent, `currentContent`, and
`streamErr` (set exactly when `hasError` is). -/
structure ChunkLoopResult where
  sent : List Effect
  currentContent : String
  streamErr : Option GoError
  deriving DecidableEq, Repr

/-- The inner loop `for _, choice := range chunk.Choices` (xai2.go, lines
155-173), started with `currentContent`. -/
def xai2Client.processChoices (lower : Char → Char) :
    List ChunkChoice → String → ChunkLoopResult
  | [], currentContent => { sent := [], currentContent := currentContent, streamErr := none }
  | choice :: rest, currentContent =>
    if choice.deltaContent ≠ "" then
      if xai2Client.isErrorContent lower choice.deltaContent then
        { sent := [], currentContent := currentContent,
          streamErr := some (.xai2ContentError 200 choice.deltaContent) }
      else
        let r := xai2Client.processChoices lower rest (currentContent ++ choice.deltaContent)
        { r with sent := .send (.delta choice.deltaContent) :: r.sent }
    else xai2Client.processChoices lower rest currentContent

/-- The loop `for openaiStream.Next()` (xai2.go, lines 151-178): it stops at
the first chunk whose choices set `hasError`. -/
def xai2Client.processChunks (lower : Char → Char) :
    List Chunk → String → ChunkLoopResult
  | [], currentContent => { sent := [], currentContent := currentContent, streamErr := none }
  | chunk :: rest, currentContent =>
    let r := xai2Client.processChoices lower chunk.choices currentContent
    match r.streamErr with
    | some _ => r
    | none =>
      let r2 := xai2Client.processChunks lower rest r.currentContent
      { r2 with sent := r.sent ++ r2.sent }

/-- The success path of an attempt (xai2.go, lines 235-267), entered with
`hasError` false. -/
def xai2Client.finishAttempt (lower : Char → Char) (acc : ChatCompletion)
    (currentContent : String) : Run :=
  if xai2Client.isErrorContent lower currentContent then
    { trace := [.send (.failed (some (.xai2ContentError 200 currentContent))),
                .requestClear, .closeChan],
      exit := .returned }
  else
    match acc.choices with
    | [] => { trace := [.closeChan], exit := .panicked }
    | first :: _ =>
      let finishReason := xai2Client.finishReason first.finishReason
      let toolCalls :=
        if first.messageToolCalls.length > 0 then [] ++ xai2Client.toolCalls acc else []
      let finishReason := if toolCalls.length > 0 then FinishReason.toolUse else finishReason
      { trace := [.send (.completed
                    { content := currentContent, toolCalls := toolCalls,
                      usage := xai2Client.usage acc, finishReason := finishReason }),
                  .requestClear, .closeChan],
        exit := .returned }

/-- What one iteration of the retry loop ends with: the goroutine is over,
or the loop goes round again (`continue`) after the given effects. -/
inductive StepResult where
  | done (run : Run)
  | again (effects : List Effect)
  deriving DecidableEq, Repr

/-- The block `if streamErr != nil && !errors.Is(streamErr, io.EOF) { ... }`
of the retry loop (xai2.go, lines 185-233), entered with the error `e`, after
the effects `started` of the attempt. -/
def xai2Client.handleStreamError (x : xai2Client) (a : Attempt) (attempts : Int)
    (started : List Effect) (e : GoError) : StepResult :=
  match xai2Client.shouldRetry attempts (some e) with
  | none => .done { trace := started ++ [.closeChan], exit := .panicked }
  | some (retry, after, retryErr) =>
    match retryErr with
    | some fatal =>
      .done { trace := started ++ [.requestClear, .send (.failed (some fatal)), .closeChan],
              exit := .returned }
    | none =>
      if retry then
        match a.ctxDone with
        | some ctxErr =>
          .done { trace := started ++ [.requestClear, .backoffWait after,
                    .send (.failed (some ctxErr)), .closeChan],
                  exit := .returned }
        | none =>
          .again (started ++ [.requestClear, .backoffWait after,
                    .requestSetCurrent x.requestInfo])
      else
        .done { trace := started ++ [.requestClear, .send (.failed (some e)), .closeChan],
                exit := .returned }

/-- The body of the retry loop of `(*xai2Client).streamWithParams` (xai2.go,
lines 134-267) for the counter value `attempts` (already incremented), when
the outside world does `a`. -/
def xai2Client.attemptStep (x : xai2Client) (lower : Char → Char) (a : Attempt)
    (attempts : Int) : StepResult :=
  let r := xai2Client.processChunks lower a.chunks ""
  let hasError := r.streamErr.isSome
  let streamErr := match r.streamErr with
    | some e => some e
    | none => a.err
  let started := Effect.newStreaming attempts :: r.sent
  let success : StepResult :=
    if !hasError then
      .done ((xai2Client.finishAttempt lower a.acc r.currentContent).after started)
    else .again started
  match streamErr with
  | none => success
  | some e =>
    if errorsIsEOF e then success
    else xai2Client.handleStreamError x a attempts started e

/-- The retry loop `for { attempts++; ... }` of `(*xai2Client).streamWithParams`
(xai2.go, lines 133-268), entered with the counter `counter`; `env n` is what
the outside world does during attempt `n`.  `fuel` bounds the number of
iterations. -/
def xai2Client.streamLoop (x : xai2Client) (lower : Char → Char) (env : Int → Attempt) :
    Nat → Int → Run
  | 0, _ => { trace := [], exit := .outOfFuel }
  | fuel + 1, counter =>
    match xai2Client.attemptStep x lower (env (counter + 1)) (counter + 1) with
    | .done run => run
    | .again effects => (xai2Client.streamLoop x lower env fuel (counter + 1)).after effects

/-- Go `(*xai2Client).streamWithParams` (xai2.go, lines 126-272): the
goroutine starts with `attempts := 0`.  Nine iterations always suffice, since
`shouldRetry` decides no retry once the counter exceeds `xai2MaxRetries`. -/
def xai2Client.streamWithParams (x : xai2Client) (lower : Char → Char)
    (env : Int → Attempt) : Run :=
  xai2Client.streamLoop x lower env 9 0

/-- The non-empty `Delta.Content` texts of a chunk's choices, in order. -/
def choiceDeltas : List ChunkChoice → List String
  | [] => []
  | choice :: rest =>
    if choice.deltaContent ≠ "" then choice.deltaContent :: choiceDeltas rest
    else choiceDeltas rest

/-- The non-empty content deltas of a chunk sequence, in arrival order. -/
def chunkDeltas : List Chunk → List String
  | [] => []
  | chunk :: rest => choiceDeltas chunk.choices ++ chunkDeltas rest

/-- The deltas that precede the first delta that is error content on its own. -/
def cleanDeltas (lower : Char → Char) : List String → List String
  | [] => []
  | d :: rest =>
    if xai2Client.isErrorContent lower d then [] else d :: cleanDeltas lower rest

/-- The first delta that is error content on its own, if there is one. -/
def firstFlagged (lower : Char → Char) : List String → Option String
  | [] => none
  | d :: rest =>
    if xai2Client.isErrorContent lower d then some d else firstFlagged lower rest

/-- The sends of one `ContentDelta` per text. -/
def deltaSends (texts : List String) : List Effect :=
  texts.map fun d => Effect.send (ProviderEvent.delta d)

/-! ## Example inputs -/

/-- A client for the xAI endpoint. -/
def exampleClient : xai2Client :=
  { provider := "xai", apiModel := "grok-4", baseURL := "https://api.x.ai/v1" }

/-- A chunk with one choice whose delta is `text`. -/
def textChunk (text : String) : Chunk :=
  { choices := [{ deltaContent := text }] }

/-- An accumulated completion with one choice, finish reason "stop", no tool
call, and the given content. -/
def stopCompletion (content : String) : ChatCompletion :=
  { choices := [{ finishReason := "stop", messageContent := content, messageToolCalls := [] }],
    promptTokens := 10, completionTokens := 2 }

/-- The stream "Hello", " world" with a normal end. -/
def helloAttempt : Attempt :=
  { chunks := [textChunk "Hello", textChunk " world"], err := none,
    acc := stopCompletion "Hello world", ctxDone := none }

/-- The stream "I think", " you have", " hit a rate limit, try again" with a
normal end. -/
def maskedAttempt : Attempt :=
  { chunks := [textChunk "I think", textChunk " you have",
      textChunk " hit a rate limit, try again"],
    err := none, acc := stopCompletion "I think you have hit a rate limit, try again",
    ctxDone := none }

/-- The stream "rate li", "mit" with a normal end: an error phrase split over
two chunks. -/
def splitPhraseAttempt : Attempt :=
  { chunks := [textChunk "rate li", textChunk "mit"], err := none,
    acc := stopCompletion "rate limit", ctxDone := none }

/-- The stream "Hello" cut by an HTTP 500 error. -/
def brokenAttempt : Attempt :=
  { chunks := [textChunk "Hello"],
    err := some (.apiError 500 "500 Internal Server Error" []),
    acc := stopCompletion "Hello", ctxDone := none }

/-- A stream that ends at once, without chunk and without error: nothing is
accumulated. -/
def emptyAttempt : Attempt :=
  { chunks := [], err := none,
    acc := { choices := [], promptTokens := 0, completionTokens := 0 }, ctxDone := none }

/-- The first attempt breaks after "Hello", every later one is the clean
stream "Hello", " world". -/
def retryThenHello (attempt : Int) : Attempt :=
  if attempt = 1 then brokenAttempt else helloAttempt

/-- An HTTP 429 error without the quota phrase, with `Retry-After: 2`. -/
def rateLimitError : GoError :=
  .apiError 429 "429 Too Many Requests" ["2"]

/-- An HTTP 429 error whose text carries the quota phrase. -/
def quotaError : GoError :=
  .apiError 429
    "429 Too Many Requests: Your team has either used all available credits or reached its monthly spending limit."
    []

/-! ## Further views of a run -/

/-- The number of network attempts a trace starts: its calls of
`NewStreaming`. -/
def attemptsStarted : List Effect → Nat
  | [] => 0
  | .newStreaming _ :: rest => attemptsStarted rest + 1
  | _ :: rest => attemptsStarted rest

/-- The error an attempt of `xai2Client` ends with, if any: the content error
of its first flagged delta, else what `openaiStream.Err()` returns unless that
is `io.EOF`. -/
def xai2Client.attemptError (lower : Char → Char) (a : Attempt) : Option GoError :=
  match firstFlagged lower (chunkDeltas a.chunks) with
  | some d => some (.xai2ContentError 200 d)
  | none =>
    match a.err with
    | some e => if errorsIsEOF e then none else some e
    | none => none

/-- The error message of `xai2Client.shouldRetry` beyond the last attempt. -/
def xai2MaxRetriesError : GoError :=
  .errorString "maximum retry attempts reached: 8 retries"

/-! ## The retry loop in general -/

/-- The loop `for { attempts++; ... }` over any loop body: `step n` is what the
iteration with counter value `n` ends with.  `fuel` bounds the number of
iterations. -/
def retryLoop (step : Int → StepResult) : Nat → Int → Run
  | 0, _ => { trace := [], exit := .outOfFuel }
  | fuel + 1, counter =>
    match step (counter + 1) with
    | .done run => run
    | .again effects => (retryLoop step fuel (counter + 1)).after effects

/-! ## The streaming call of `xaiClient` -/

/-- The methods and the constant of `openaiClient` that `xaiClient` calls.  They
are declared in files of the package that are not part of the sources at hand,
so each is a parameter. -/
structure OpenAIClientBase where
  /-- The constant `maxRetries`. -/
  maxRetries : Int
  /-- The method `(*openaiClient).shouldRetry`. -/
  shouldRetry : Int → Option GoError → Option RetryDecision
  /-- The method `(*openaiClient).finishReason`. -/
  finishReason : String → FinishReason
  /-- The method `(*openaiClient).toolCalls`. -/
  toolCalls : ChatCompletion → List ToolCall
  /-- The method `(*openaiClient).usage`. -/
  usage : ChatCompletion → TokenUsage

/-- The fields of `xaiClient` the streaming call reads, and the embedded
`*openaiClient`. -/
structure xaiClient where
  provider : String
  apiModel : String
  base : OpenAIClientBase

/-- The argument of every `request.SetCurrent` call of `xaiClient`. -/
def xaiClient.requestInfo (x : xaiClient) : RequestInfo :=
  { provider := x.provider, model := x.apiModel, url := "https://api.x.ai/v1" }

/-- The inner loop `for _, choice := range chunk.Choices` of
`(*xaiClient).streamWithParams` (xai.go, lines 406-414): every non-empty delta
is sent and appended. -/
def xaiClient.processChoices : List ChunkChoice → String → ChunkLoopResult
  | [], currentContent => { sent := [], currentContent := currentContent, streamErr := none }
  | choice :: rest, currentContent =>
    if choice.deltaContent ≠ "" then
      let r := xaiClient.processChoices rest (currentContent ++ choice.deltaContent)
      { r with sent := .send (.delta choice.deltaContent) :: r.sent }
    else xaiClient.processChoices rest currentContent

/-- The loop `for openaiStream.Next()` of `(*xaiClient).streamWithParams`
(xai.go, lines 402-415). -/
def xaiClient.processChunks : List Chunk → String → ChunkLoopResult
  | [], currentContent => { sent := [], currentContent := currentContent, streamErr := none }
  | chunk :: rest, currentContent =>
    let r := xaiClient.processChoices chunk.choices currentContent
    let r2 := xaiClient.processChunks rest r.currentContent
    { r2 with sent := r.sent ++ r2.sent }

/-- The block `if streamErr != nil && !errors.Is(streamErr, io.EOF) { ... }` of
`(*xaiClient).streamWithParams` (xai.go, lines 419-474). -/
def xaiClient.handleStreamError (x : xaiClient) (a : Attempt) (attempts : Int)
    (started : List Effect) (e : GoError) : StepResult :=
  match xaiClient.shouldRetry x.base.maxRetries x.base.shouldRetry attempts (some e) with
  | none => .done { trace := started ++ [.closeChan], exit := .panicked }
  | some (retry, after, retryErr) =>
    match retryErr with
    | some fatal =>
      .done { trace := started ++ [.requestClear, .send (.failed (some fatal)), .closeChan],
              exit := .returned }
    | none =>
      if retry then
        match a.ctxDone with
        | some ctxErr =>
          .done { trace := started ++ [.requestClear, .backoffWait after,
                    .send (.failed (some ctxErr)), .closeChan],
                  exit := .returned }
        | none =>
          .again (started ++ [.requestClear, .backoffWait after,
                    .requestSetCurrent x.requestInfo])
      else
        .done { trace := started ++ [.requestClear, .send (.failed (some e)), .closeChan],
                exit := .returned }

/-- The success path of an attempt of `(*xaiClient).streamWithParams` (xai.go,
lines 476-497). -/
def xaiClient.finishAttempt (x : xaiClient) (acc : ChatCompletion)
    (currentContent : String) : Run :=
  match acc.choices with
  | [] => { trace := [.closeChan], exit := .panicked }
  | first :: _ =>
    let finishReason := x.base.finishReason first.finishReason
    let toolCalls :=
      if first.messageToolCalls.length > 0 then [] ++ x.base.toolCalls acc else []
    let finishReason := if toolCalls.length > 0 then FinishReason.toolUse else finishReason
    { trace := [.send (.completed
                  { content := currentContent, toolCalls := toolCalls,
                    usage := x.base.usage acc, finishReason := finishReason }),
                .requestClear, .closeChan],
      exit := .returned }

/-- The body of the retry loop of `(*xaiClient).streamWithParams` (xai.go, lines
390-497) for the counter value `attempts` (already incremented). -/
def xaiClient.attemptStep (x : xaiClient) (a : Attempt) (attempts : Int) : StepResult :=
  let r := xaiClient.processChunks a.chunks ""
  let started := Effect.newStreaming attempts :: r.sent
  match a.err with
  | none => .done ((xaiClient.finishAttempt x a.acc r.currentContent).after started)
  | some e =>
    if errorsIsEOF e then
      .done ((xaiClient.finishAttempt x a.acc r.currentContent).after started)
    else xaiClient.handleStreamError x a attempts started e

/-- The retry loop of `(*xaiClient).streamWithParams` (xai.go, lines 389-498),
entered with the counter `counter`. -/
def xaiClient.streamLoop (x : xaiClient) (env : Int → Attempt) : Nat → Int → Run :=
  retryLoop fun attempts => xaiClient.attemptStep x (env attempts) attempts

/-- Go `(*xaiClient).streamWithParams` (xai.go, lines 382-502).  How often the
loop goes round rests on `openaiClient.shouldRetry`, so the number of
iterations the model follows is the parameter `fuel`. -/
def xaiClient.streamWithParams (x : xaiClient) (env : Int → Attempt) (fuel : Nat) : Run :=
  xaiClient.streamLoop x env fuel 0

/-! ## The request tracker along a trace -/

/-- Go `(*xai2Client).toProviderResponse` (xai2.go, lines 495-510).  `none` is
the run-time panic of the read of `completion.Choices[0]` on an empty list. -/
def xai2Client.toProviderResponse (completion : ChatCompletion) : Option ProviderResponse :=
  let content := match completion.choices with
    | first :: _ => first.messageContent
    | [] => ""
  let toolCalls :=
    if completion.choices.length > 0 then xai2Client.toolCalls completion else []
  match completion.choices with
  | [] => none
  | first :: _ =>
    some { content := content, toolCalls := toolCalls,
           usage := xai2Client.usage completion,
           finishReason := xai2Client.finishReason first.finishReason }

/-- A run of the non-streaming call: its effects, the pair it returns, and
how it ended. -/
structure SendRun where
  trace : List Effect
  response : Option ProviderResponse
  err : Option GoError
  exit : Exit
  deriving DecidableEq, Repr

/-- Go `(*xai2Client).SendMessages` (xai2.go, lines 85-108); `backend` is what
the call of `Chat.Completions.New` returns. -/
def xai2Client.SendMessages (x : xai2Client) (backend : Except GoError ChatCompletion) :
    SendRun :=
  match backend with
  | .error err =>
    { trace := [.requestSetCurrent x.requestInfo, .newCompletion, .requestClear],
      response := none, err := some err, exit := .returned }
  | .ok completion =>
    match xai2Client.toProviderResponse completion with
    | none =>
      { trace := [.requestSetCurrent x.requestInfo, .newCompletion, .requestClear],
        response := none, err := none, exit := .panicked }
    | some response =>
      { trace := [.requestSetCurrent x.requestInfo, .newCompletion, .requestClear],
        response := some response, err := none, exit := .returned }

/-! ## The event wrapper of `xaiClient` -/

/-- The local variables of the goroutine of `wrapStreamEvents`:
`accumulatedContent`, `bufferedEvents`, `isBuffering`. -/
structure WrapState where
  accumulatedContent : String
  bufferedEvents : List ProviderEvent
  isBuffering : Bool
  deriving DecidableEq, Repr

/-- The state at the start, and after every reset. -/
def WrapState.initial : WrapState :=
  { accumulatedContent := "", bufferedEvents := [], isBuffering := false }

/-- The `switch event.Type` of `(*xaiClient).wrapStreamEvents` (xai.go, lines
265-321) for one base event: the new state and the events sent on. -/
def xaiClient.wrapEvent (lower : Char → Char) (s : WrapState) (event : ProviderEvent) :
    WrapState × List ProviderEvent :=
  match event.type with
  | .contentDelta =>
    ({ accumulatedContent := s.accumulatedContent ++ event.content,
       bufferedEvents := s.bufferedEvents ++ [event],
       isBuffering := true }, [])
  | .complete =>
    let fullContent := match event.response with
      | some response => response.content
      | none => s.accumulatedContent
    if xaiClient.isErrorContent lower fullContent then
      (WrapState.initial, [.failed (some (.xaiContentError 429 fullContent))])
    else if s.isBuffering then
      (WrapState.initial, s.bufferedEvents ++ [event])
    else
      (WrapState.initial, [event])
  | .error => (WrapState.initial, [event])
  | .other _ => (s, [event])

/-- The loop `for event := range baseEvents` of `wrapStreamEvents` and the
flush after it (xai.go, lines 250-335), from the state `s`. -/
def xaiClient.wrapLoop (lower : Char → Char) : WrapState → List ProviderEvent →
    List ProviderEvent
  | s, [] =>
    if s.bufferedEvents.length > 0 ∧
        xaiClient.isErrorContent lower s.accumulatedContent = false then
      s.bufferedEvents
    else []
  | s, event :: rest =>
    (xaiClient.wrapEvent lower s event).2 ++
      xaiClient.wrapLoop lower (xaiClient.wrapEvent lower s event).1 rest

/-- Go `(*xaiClient).wrapStreamEvents` (xai.go, lines 232-339): the events
sent on the wrapped channel, for the events received on `baseEvents` until it
is closed. -/
def xaiClient.wrapStreamEvents (lower : Char → Char) (baseEvents : List ProviderEvent) :
    List ProviderEvent :=
  xaiClient.wrapLoop lower WrapState.initial baseEvents

/-- The text `wrapStreamEvents` classifies at the `Complete` event `event` that
follows the content deltas `deltas`: the content of its response, or the
concatenation of the deltas when it has no response. -/
def completedContent (deltas : List ProviderEvent) (event : ProviderEvent) : String :=
  match event.response with
  | some response => response.content
  | none => concatStrings (deltas.map fun d => d.content)

/-! ## MCP tools -/

/-- Go `tools.ToolResponse`, by the three ways `mcp-tools.go` builds one:
`tools.ToolResponse{}`, `tools.NewTextResponse(content)` and
`tools.NewTextErrorResponse(content)`. -/
inductive ToolResponse where
  | zero
  | text (content : String)
  | textError (content : String)
  deriving DecidableEq, Repr

/-- Go `config.MCPType`. -/
inductive MCPType where
  | stdio
  | sse
  | other (name : String)
  deriving DecidableEq, Repr

/-- An element of `mcp.CallToolResult.Content`: a `mcp.TextContent` by its
text, anything else by what `fmt.Sprintf("%v", v)` renders. -/
inductive McpContent where
  | text (text : String)
  | other (rendered : String)
  deriving DecidableEq, Repr

/-- What `mcpTool.Run` and `runTool` do to their collaborators, in program
order. -/
inductive McpEffect where
  /-- Call of `permissions.Request` with the given request. -/
  | permissionRequest (sessionID path toolName action description params : String)
  /-- Call of `client.NewStdioMCPClient`. -/
  | newStdioClient
  /-- Call of `client.NewSSEMCPClient`. -/
  | newSSEClient
  /-- Call of `c.Initialize`. -/
  | clientInitialize
  /-- Call of `c.ListTools`. -/
  | listTools
  /-- Call of `c.CallTool` for the tool `name`. -/
  | callTool (name : String)
  /-- Call of `c.Close`. -/
  | close
  deriving DecidableEq, Repr

/-- What the collaborators of `mcpTool.Run` answer. -/
structure McpWorld where
  /-- The session ID of `tools.GetContextValues(ctx)`. -/
  sessionID : String
  /-- The message ID of `tools.GetContextValues(ctx)`. -/
  messageID : String
  /-- The value of `config.WorkingDirectory()`. -/
  workingDirectory : String
  /-- The answer of `permissions.Request`. -/
  granted : Bool
  /-- The error of `client.NewStdioMCPClient` or `client.NewSSEMCPClient`. -/
  newClientErr : Option GoError
  /-- The error of `c.Initialize`. -/
  initErr : Option GoError
  /-- The error of `json.Unmarshal` on the input. -/
  parseErr : Option GoError
  /-- The result of `c.CallTool`. -/
  callResult : Except GoError (List McpContent)

/-- The fields of `mcpTool` that `Run` reads. -/
structure mcpTool where
  mcpName : String
  toolName : String
  configType : MCPType
  deriving DecidableEq, Repr

/-- What a call returns, with the effects it had: a `tools.ToolResponse` and a
Go error. -/
structure McpRun where
  trace : List McpEffect
  response : ToolResponse
  err : Option GoError
  deriving DecidableEq, Repr

/-- The name `b.Info().Name` (mcp-tools.go, line 42). -/
def mcpTool.infoName (b : mcpTool) : String :=
  b.mcpName ++ "_" ++ b.toolName

/-- The loop over `result.Content` of `runTool` (mcp-tools.go, lines 75-82):
the last element decides the output. -/
def runToolOutput : List McpContent → String → String
  | [], output => output
  | .text text :: rest, _ => runToolOutput rest text
  | .other rendered :: rest, _ => runToolOutput rest rendered

/-- Go `runTool` (mcp-tools.go, lines 49-85); the deferred `c.Close()` runs at
every return. -/
def runTool (world : McpWorld) (toolName : String) : McpRun :=
  match world.initErr with
  | some err =>
    { trace := [.clientInitialize, .close], response := .textError err.Error, err := none }
  | none =>
    match world.parseErr with
    | some err =>
      { trace := [.clientInitialize, .close],
        response := .textError ("error parsing parameters: " ++ err.Error), err := none }
    | none =>
      match world.callResult with
      | .error err =>
        { trace := [.clientInitialize, .callTool toolName, .close],
          response := .textError err.Error, err := none }
      | .ok content =>
        { trace := [.clientInitialize, .callTool toolName, .close],
          response := .text (runToolOutput content ""), err := none }

/-- Go `(*mcpTool).Run` (mcp-tools.go, lines 87-130), for the input
`params.Input = input`. -/
def mcpTool.Run (b : mcpTool) (world : McpWorld) (input : String) : McpRun :=
  if world.sessionID = "" ∨ world.messageID = "" then
    { trace := [], response := .zero,
      err := some (.errorString
        "session ID and message ID are required for creating a new file") }
  else
    let permissionDescription :=
      "execute " ++ b.infoName ++ " with the following parameters: " ++ input
    let asked := McpEffect.permissionRequest world.sessionID world.workingDirectory
      b.infoName "execute" permissionDescription input
    if !world.granted then
      { trace := [asked], response := .textError "permission denied", err := none }
    else
      match b.configType with
      | .stdio =>
        match world.newClientErr with
        | some err =>
          { trace := [asked, .newStdioClient], response := .textError err.Error, err := none }
        | none =>
          let r := runTool world b.toolName
          { r with trace := [asked, .newStdioClient] ++ r.trace }
      | .sse =>
        match world.newClientErr with
        | some err =>
          { trace := [asked, .newSSEClient], response := .textError err.Error, err := none }
        | none =>
          let r := runTool world b.toolName
          { r with trace := [asked, .newSSEClient] ++ r.trace }
      | .other _ =>
        { trace := [asked], response := .textError "invalid mcp type", err := none }

/-! ## Further example inputs -/

/-- The stream "Hello" cut by an HTTP 500 error, with the cancellation fired
during the backoff wait that follows. -/
def cancelledAttempt : Attempt :=
  { chunks := [textChunk "Hello"],
    err := some (.apiError 500 "500 Internal Server Error" []),
    acc := stopCompletion "Hello", ctxDone := some .contextCanceled }

/-- A stand-in for the `openaiClient` methods in concrete evaluations: it
retries every error after 2000 ms up to attempt 8 and converts a completion as
`xai2Client` does. -/
def exampleBase : OpenAIClientBase :=
  { maxRetries := 8,
    shouldRetry := fun attempts err =>
      if attempts > 8 then some (false, 0, some (.errorString "maximum retry attempts reached"))
      else match err with
        | none => some (false, 0, none)
        | some _ => some (true, 2000, none),
    finishReason := xai2Client.finishReason,
    toolCalls := xai2Client.toolCalls,
    usage := xai2Client.usage }

/-- An `xaiClient` over the stand-in base. -/
def exampleXaiClient : xaiClient :=
  { provider := "xai", apiModel := "grok-4", base := exampleBase }

/-- The `message.ToolCall` built from an accumulated tool call, as in the loop
of `(*xai2Client).toolCalls` (xai2.go, lines 533-541). -/
def toolCallOf (tc : CompletionToolCall) : ToolCall :=
  { id := tc.id, name := tc.functionName, input := tc.functionArguments,
    type := "function", finished := true }

/-- An accumulated completion with finish reason "stop" and two tool calls. -/
def toolCompletion : ChatCompletion :=
  { choices := [{ finishReason := "stop", messageContent := "",
                  messageToolCalls :=
                    [{ id := "call_1", functionName := "ls", functionArguments := "\x7b\x7d" },
                     { id := "call_2", functionName := "view",
                       functionArguments := "\x7b\x22path\x22:\x22a.go\x22\x7d" }] }],
    promptTokens := 10, completionTokens := 4 }

/-- A stream without text that ends normally with the two tool calls
accumulated. -/
def toolAttempt : Attempt :=
  { chunks := [], err := none, acc := toolCompletion, ctxDone := none }

/-- A tool of the MCP server "files" reached over stdio. -/
def exampleTool : mcpTool :=
  { mcpName := "files", toolName := "read", configType := .stdio }

/-- A world in which the permission is denied; the server itself would
answer. -/
def deniedWorld : McpWorld :=
  { sessionID := "s1", messageID := "m1", workingDirectory := "/work", granted := false,
    newClientErr := none, initErr := none, parseErr := none,
    callResult := .ok [.text "contents"] }

/-- The base events "Hello", " world" followed by their `Complete`. -/
def helloBaseEvents : List ProviderEvent :=
  [.delta "Hello", .delta " world",
   .completed { content := "Hello world", toolCalls := [],
                usage := { inputTokens := 10, outputTokens := 2,
                           cacheCreationTokens := 0, cacheReadTokens := 0 },
                finishReason := .endTurn }]

/-! ## The non-streaming call of `xaiClient` -/

/-- Go `(*xaiClient).sendWithParams` (xai.go, lines 182-200); `parent` is the
pair `x.openaiClient.sendWithParams(ctx, params)` returns, a method declared
outside the sources at hand. -/
def xaiClient.sendWithParams (lower : Char → Char)
    (parent : Option ProviderResponse × Option GoError) :
    Option ProviderResponse × Option GoError :=
  match parent with
  | (some response, none) =>
    if xaiClient.isErrorContent lower response.content then
      (none, some (.xaiContentError 429 response.content))
    else (some response, none)
  | (response, err) => (response, err)

/-! ## Discovery of the MCP tools -/

/-- What the MCP connection handed to `getTools` answers. -/
structure GetToolsWorld where
  /-- The error of `c.Initialize` under the 10 s timeout, a timeout included. -/
  initErr : Option GoError
  /-- The result of `c.ListTools`: the names of the tools, or an error. -/
  listResult : Except GoError (List String)

/-- What `getTools` returns, with the effects it had on the connection. -/
structure GetToolsRun where
  trace : List McpEffect
  tools : List mcpTool
  deriving DecidableEq, Repr

/-- Go `getTools` (mcp-tools.go, lines 143-183) for the server `name` of type
`configType`.  The `defer c.Close()` of line 178 is registered after the two
early returns. -/
def getTools (name : String) (configType : MCPType) (world : GetToolsWorld) : GetToolsRun :=
  match world.initErr with
  | some _ => { trace := [.clientInitialize], tools := [] }
  | none =>
    match world.listResult with
    | .error _ => { trace := [.clientInitialize, .listTools], tools := [] }
    | .ok names =>
      { trace := [.clientInitialize, .listTools, .close],
        tools := names.map fun toolName =>
          { mcpName := name, toolName := toolName, configType := configType } }

/-- The number of `c.Close()` calls of a trace. -/
def closeCount : List McpEffect → Nat
  | [] => 0
  | .close :: rest => closeCount rest + 1
  | _ :: rest => closeCount rest

/-! ## Conversion of the conversation -/

/-- Go `message.MessageRole`. -/
inductive MessageRole where
  | user
  | assistant
  | system
  | tool
  | other (name : String)
  deriving DecidableEq, Repr

/-- Go `message.ToolResult`, with the fields the conversion reads. -/
structure ToolResult where
  toolCallID : String
  content : String
  deriving DecidableEq, Repr

/-- Go `message.Message`, by what the conversion reads of it: `msg.Role`,
`msg.Content().Text`, `msg.ToolCalls()` and `msg.ToolResults()`. -/
structure Message where
  role : MessageRole
  text : String
  toolCalls : List ToolCall
  toolResults : List ToolResult
  deriving DecidableEq, Repr

/-- Go `openai.ChatCompletionMessageToolCallParam`. -/
structure ToolCallParam where
  id : String
  type : String
  functionName : String
  functionArguments : String
  deriving DecidableEq, Repr

/-- Go `openai.ChatCompletionMessageParamUnion`, by the ways the conversion
builds one. -/
inductive OpenAIMessage where
  /-- Go `openai.UserMessage(content)`. -/
  | user (content : String)
  /-- The union with `OfAssistant` set: the content if any, and the tool
  calls. -/
  | assistantParam (content : Option String) (toolCalls : List ToolCallParam)
  /-- Go `openai.AssistantMessage(content)`. -/
  | assistant (content : String)
  /-- Go `openai.SystemMessage(content)`. -/
  | system (content : String)
  /-- Go `openai.ToolMessage(content, toolCallID)`. -/
  | tool (content : String) (toolCallID : String)
  deriving DecidableEq, Repr

/-- Go `(*xai2Client).convertMessage` (xai2.go, lines 393-447). -/
def xai2Client.convertMessage (msg : Message) : OpenAIMessage :=
  let content := msg.text
  let toolCalls := msg.toolCalls
  match msg.role with
  | .user => .user content
  | .assistant =>
    if content ≠ "" ∨ toolCalls.length > 0 then
      .assistantParam (if content ≠ "" then some content else none)
        (toolCalls.map fun tc =>
          { id := tc.id, type := "function", functionName := tc.name,
            functionArguments := tc.input })
    else .assistant content
  | .system => .system content
  | .tool =>
    match msg.toolResults with
    | result :: _ => .tool result.content result.toolCallID
    | [] => .user content
  | .other _ => .user content

/-- Go `(*xai2Client).convertMessages` (xai2.go, lines 275-292);
`externalPrompt` is what `loadExternalGrokPrompt()` returns and `systemMessage`
the field `providerOptions.systemMessage`. -/
def xai2Client.convertMessages (systemMessage externalPrompt : String)
    (messages : List Message) : List OpenAIMessage :=
  let systemMessage := if externalPrompt ≠ "" then externalPrompt else systemMessage
  let openaiMessages := if systemMessage ≠ "" then [OpenAIMessage.system systemMessage] else []
  openaiMessages ++ messages.map xai2Client.convertMessage

/-- The tool messages of a converted conversation, in order. -/
def toolMessages : List OpenAIMessage → List OpenAIMessage
  | [] => []
  | .tool content toolCallID :: rest => .tool content toolCallID :: toolMessages rest
  | _ :: rest => toolMessages rest

/-! ## Views of the event wrapper -/

/-- The text `wrapStreamEvents` classifies at the `Complete` event `event` in
the state `s`. -/
def classifiedContent (s : WrapState) (event : ProviderEvent) : String :=
  match event.response with
  | some response => response.content
  | none => s.accumulatedContent

/-- Whether an event is of a type other than `ContentDelta`, `Complete` and
`Error`: the events the wrapper passes through. -/
def ProviderEvent.isPassThrough (e : ProviderEvent) : Bool :=
  match e.type with
  | .other _ => true
  | _ => false

/-- Whether an event is a `ContentDelta`. -/
def ProviderEvent.isContentDelta (e : ProviderEvent) : Bool :=
  match e.type with
  | .contentDelta => true
  | _ => false

/-- How the wrapper may change an event that is not a content delta: a
`Complete` is passed on as it is or replaced by an `Error`; every other event
is passed on as it is. -/
def WrappedAs (base wrapped : ProviderEvent) : Prop :=
  (base.type = .complete ∧ (wrapped = base ∨ wrapped.type = .error)) ∨
  (base.type ≠ .complete ∧ wrapped = base)

/-- What holds of every state the wrapper reaches: the accumulated text is the
concatenation of the buffered events, which are content deltas, and nothing
is buffered unless `isBuffering` is set. -/
def WrapState.Consistent (s : WrapState) : Prop :=
  s.accumulatedContent = concatStrings (s.bufferedEvents.map fun d => d.content) ∧
  (∀ d ∈ s.bufferedEvents, d.type = .contentDelta) ∧
  (s.isBuffering = false → s.bufferedEvents = [])

/-! ## Example inputs for the later properties -/

/-- A stream whose whole text is a rate-limit message, with a normal end. -/
def rateLimitTextAttempt : Attempt :=
  { chunks := [textChunk "Rate limit exceeded, please try again later."], err := none,
    acc := stopCompletion "Rate limit exceeded, please try again later.", ctxDone := none }

/-- A completion without any choice. -/
def emptyCompletion : ChatCompletion :=
  { choices := [], promptTokens := 0, completionTokens := 0 }

/-- A connection whose `Initialize` runs into the timeout. -/
def timeoutWorld : GetToolsWorld :=
  { initErr := some .deadlineExceeded, listResult := .ok ["read"] }

/-- A connection whose `ListTools` fails. -/
def listErrorWorld : GetToolsWorld :=
  { initErr := none, listResult := .error (.errorString "transport closed") }

/-- A Tool-role message that carries two tool results. -/
def twoResultsMessage : Message :=
  { role := .tool, text := "", toolCalls := [],
    toolResults := [{ toolCallID := "call_1", content := "first" },
                    { toolCallID := "call_2", content := "second" }] }

/-- A tool-call event, of a type the wrapper passes through. -/
def toolUseEvent : ProviderEvent :=
  { type := .other "tool_use_start", content := "", response := none, error := none }

/-- Base events whose deltas read "Hello world" while the response of the
`Complete` says "Rate limit". -/
def overriddenBaseEvents : List ProviderEvent :=
  [.delta "Hello", .delta " world",
   .completed { content := "Rate limit", toolCalls := [],
                usage := { inputTokens := 10, outputTokens := 2,
                           cacheCreationTokens := 0, cacheReadTokens := 0 },
                finishReason := .endTurn }]

/-! # Properties -/
/-! ## Properties of the string functions -/

theorem hasPrefixChars_iff (s p : List Char) :
    hasPrefixChars s p = true ↔ ∃ rest, s = p ++ rest := by
  induction p generalizing s with
  | nil => simp [hasPrefixChars]
  | cons x xs ih =>
    cases s with
    | nil => simp [hasPrefixChars]
    | cons c cs =>
      simp only [hasPrefixChars, Bool.and_eq_true, decide_eq_true_eq, ih, List.cons_append,
        List.cons.injEq]
      constructor
      · rintro ⟨h, r, hr⟩
        exact ⟨r, h, hr⟩
      · rintro ⟨r, h, hr⟩
        exact ⟨h, r, hr⟩

theorem containsChars_iff (s substr : List Char) :
    containsChars s substr = true ↔ ∃ before after, s = before ++ substr ++ after := by
  induction s with
  | nil =>
    simp only [containsChars, hasPrefixChars_iff]
    constructor
    · rintro ⟨r, hr⟩
      exact ⟨[], r, by simpa using hr⟩
    · rintro ⟨a, b, h⟩
      have h1 : a ++ substr ++ b = [] := h.symm
      simp only [List.append_eq_nil] at h1
      exact ⟨[], by simp [h1.1.2]⟩
  | cons c cs ih =>
    simp only [containsChars, Bool.or_eq_true, hasPrefixChars_iff, ih]
    constructor
    · rintro (⟨r, hr⟩ | ⟨a, b, h⟩)
      · exact ⟨[], r, by simpa using hr⟩
      · exact ⟨c :: a, b, by simp [h]⟩
    · rintro ⟨a, b, h⟩
      cases a with
      | nil => exact Or.inl ⟨b, by simpa using h⟩
      | cons x xs =>
        simp only [List.cons_append, List.cons.injEq] at h
        exact Or.inr ⟨xs, b, h.2⟩

theorem stringsContains_iff (s substr : String) :
    stringsContains s substr = true ↔ IsSubstring substr s := by
  unfold stringsContains IsSubstring
  exact containsChars_iff s.data substr.data

theorem matchesAnyPattern_iff (lowerContent : String) (patterns : List String) :
    matchesAnyPattern lowerContent patterns = true ↔
      ∃ p ∈ patterns, IsSubstring p lowerContent := by
  induction patterns with
  | nil => simp [matchesAnyPattern]
  | cons p ps ih =>
    by_cases h : stringsContains lowerContent p = true
    · have hp := (stringsContains_iff lowerContent p).mp h
      simp only [matchesAnyPattern, h, if_true, true_iff]
      exact ⟨p, List.mem_cons_self p ps, hp⟩
    · have hp : ¬ IsSubstring p lowerContent := fun k =>
        h ((stringsContains_iff lowerContent p).mpr k)
      have hstep : matchesAnyPattern lowerContent (p :: ps) = matchesAnyPattern lowerContent ps := by
        simp only [matchesAnyPattern, h]
        rfl
      rw [hstep, ih]
      constructor
      · rintro ⟨q, hq, hs⟩
        exact ⟨q, List.mem_cons_of_mem p hq, hs⟩
      · rintro ⟨q, hq, hs⟩
        rcases List.mem_cons.mp hq with hq | hq
        · exact absurd (hq ▸ hs) hp
        · exact ⟨q, hq, hs⟩

/-- No phrase of the pattern list is empty, so none occurs in the empty text. -/
theorem not_isSubstring_empty (p : String) (hp : p ∈ xai2ErrorPatterns) :
    ¬ IsSubstring p "" := by
  rintro ⟨a, b, h⟩
  have h1 : a ++ p.data ++ b = [] := h.symm
  simp only [List.append_eq_nil] at h1
  have h2 : p = "" := by
    cases p
    simp_all
  subst h2
  revert hp
  decide

theorem stringsToLower_empty (lower : Char → Char) : stringsToLower lower "" = "" := rfl

/-- C1. `isErrorContent(T)` is true exactly when the lower-cased `T`
contains one of the seven phrases of the error-pattern list as a substring,
for `xai2Client` and identically for `xaiClient`; it is false for the empty
string. -/
theorem isErrorContent_iff_contains_phrase (lower : Char → Char) (T : String) :
    xai2ErrorPatterns.length = 7 ∧
    (xai2Client.isErrorContent lower T = true ↔
      ∃ p ∈ xai2ErrorPatterns, IsSubstring p (stringsToLower lower T)) ∧
    xaiClient.isErrorContent lower T = xai2Client.isErrorContent lower T ∧
    xai2Client.isErrorContent lower "" = false ∧
    xaiClient.isErrorContent lower "" = false := by
  refine ⟨rfl, ?_, rfl, rfl, rfl⟩
  by_cases hT : T = ""
  · subst hT
    simp only [xai2Client.isErrorContent, if_true, stringsToLower_empty]
    constructor
    · intro h
      cases h
    · rintro ⟨p, hp, hs⟩
      exact absurd hs (not_isSubstring_empty p hp)
  · simp only [xai2Client.isErrorContent, hT, if_false]
    exact matchesAnyPattern_iff _ _


/-! ## The chunk loop -/

theorem concatStrings_append (xs ys : List String) :
    concatStrings (xs ++ ys) = concatStrings xs ++ concatStrings ys := by
  induction xs with
  | nil => simp [concatStrings]
  | cons x xs ih => simp [concatStrings, ih, String.append_assoc]

theorem deltaSends_append (xs ys : List String) :
    deltaSends (xs ++ ys) = deltaSends xs ++ deltaSends ys := by
  simp [deltaSends]

theorem cleanDeltas_append (lower : Char → Char) (xs ys : List String) :
    cleanDeltas lower (xs ++ ys) =
      match firstFlagged lower xs with
      | some _ => cleanDeltas lower xs
      | none => cleanDeltas lower xs ++ cleanDeltas lower ys := by
  induction xs with
  | nil => simp [cleanDeltas, firstFlagged]
  | cons x xs ih =>
    by_cases h : xai2Client.isErrorContent lower x = true
    · simp [cleanDeltas, firstFlagged, h]
    · have e : (x :: xs) ++ ys = x :: (xs ++ ys) := rfl
      have hf : xai2Client.isErrorContent lower x = false := by simpa using h
      rw [e]
      simp only [cleanDeltas, firstFlagged, hf, if_false, Bool.false_eq_true, ih]
      cases firstFlagged lower xs <;> simp

theorem firstFlagged_append (lower : Char → Char) (xs ys : List String) :
    firstFlagged lower (xs ++ ys) =
      match firstFlagged lower xs with
      | some d => some d
      | none => firstFlagged lower ys := by
  induction xs with
  | nil => simp [firstFlagged]
  | cons x xs ih =>
    by_cases h : xai2Client.isErrorContent lower x = true
    · simp [firstFlagged, h]
    · have e : (x :: xs) ++ ys = x :: (xs ++ ys) := rfl
      have hf : xai2Client.isErrorContent lower x = false := by simpa using h
      rw [e]
      simp only [firstFlagged, hf, if_false, Bool.false_eq_true, ih]

/-- The choice loop sends the deltas before the first flagged one, appends
them to `currentContent`, and turns the first flagged one into the error. -/
theorem processChoices_eq (lower : Char → Char) (choices : List ChunkChoice) (cur : String) :
    xai2Client.processChoices lower choices cur =
      { sent := deltaSends (cleanDeltas lower (choiceDeltas choices)),
        currentContent := cur ++ concatStrings (cleanDeltas lower (choiceDeltas choices)),
        streamErr := (firstFlagged lower (choiceDeltas choices)).map
          fun d => GoError.xai2ContentError 200 d } := by
  induction choices generalizing cur with
  | nil => simp [xai2Client.processChoices, choiceDeltas, cleanDeltas, firstFlagged, deltaSends,
      concatStrings]
  | cons c cs ih =>
    by_cases hne : c.deltaContent = ""
    · simp [xai2Client.processChoices, choiceDeltas, hne, ih]
    · by_cases hflag : xai2Client.isErrorContent lower c.deltaContent = true
      · simp [xai2Client.processChoices, choiceDeltas, hne, hflag, cleanDeltas, firstFlagged,
          deltaSends, concatStrings]
      · simp [xai2Client.processChoices, choiceDeltas, hne, hflag, cleanDeltas, firstFlagged,
          deltaSends, concatStrings, ih, String.append_assoc]

/-- The chunk loop does the same over the deltas of all chunks. -/
theorem processChunks_eq (lower : Char → Char) (chunks : List Chunk) (cur : String) :
    xai2Client.processChunks lower chunks cur =
      { sent := deltaSends (cleanDeltas lower (chunkDeltas chunks)),
        currentContent := cur ++ concatStrings (cleanDeltas lower (chunkDeltas chunks)),
        streamErr := (firstFlagged lower (chunkDeltas chunks)).map
          fun d => GoError.xai2ContentError 200 d } := by
  induction chunks generalizing cur with
  | nil => simp [xai2Client.processChunks, chunkDeltas, cleanDeltas, firstFlagged, deltaSends,
      concatStrings]
  | cons c cs ih =>
    simp only [xai2Client.processChunks, chunkDeltas, processChoices_eq, cleanDeltas_append,
      firstFlagged_append, ih]
    cases h : firstFlagged lower (choiceDeltas c.choices) with
    | some d => simp
    | none => simp [deltaSends_append, concatStrings_append, String.append_assoc]

theorem cleanDeltas_clean (lower : Char → Char) (ds : List String) :
    ∀ d ∈ cleanDeltas lower ds, xai2Client.isErrorContent lower d = false := by
  induction ds with
  | nil => simp [cleanDeltas]
  | cons x xs ih =>
    by_cases h : xai2Client.isErrorContent lower x = true
    · simp [cleanDeltas, h]
    · intro d hd
      simp only [cleanDeltas, h, if_false, Bool.false_eq_true, List.mem_cons] at hd
      rcases hd with hd | hd
      · subst hd
        simpa using h
      · exact ih d hd

theorem cleanDeltas_of_all_clean (lower : Char → Char) (ds : List String)
    (h : ∀ d ∈ ds, xai2Client.isErrorContent lower d = false) :
    cleanDeltas lower ds = ds ∧ firstFlagged lower ds = none := by
  induction ds with
  | nil => simp [cleanDeltas, firstFlagged]
  | cons x xs ih =>
    have hx := h x (List.mem_cons_self x xs)
    have hxs := ih fun d hd => h d (List.mem_cons_of_mem x hd)
    simp [cleanDeltas, firstFlagged, hx, hxs.1, hxs.2]

/-- The deltas split into the clean ones and, if a delta is flagged, the
first flagged one with all that follow it. -/
theorem cleanDeltas_split (lower : Char → Char) (ds : List String) :
    (firstFlagged lower ds = none ∧ cleanDeltas lower ds = ds) ∨
    (∃ d tail, firstFlagged lower ds = some d ∧ xai2Client.isErrorContent lower d = true ∧
      ds = cleanDeltas lower ds ++ d :: tail) := by
  induction ds with
  | nil => left; exact ⟨rfl, rfl⟩
  | cons y ys ih =>
    by_cases hflag : xai2Client.isErrorContent lower y = true
    · right
      exact ⟨y, ys, by simp [firstFlagged, hflag], hflag, by simp [cleanDeltas, hflag]⟩
    · have hf : xai2Client.isErrorContent lower y = false := by simpa using hflag
      rcases ih with ⟨h1, h2⟩ | ⟨d, tail, h1, h2, h3⟩
      · left
        simp [firstFlagged, cleanDeltas, hf, h1, h2]
      · right
        refine ⟨d, tail, by simp [firstFlagged, hf, h1], h2, ?_⟩
        simp only [cleanDeltas, hf, if_false, Bool.false_eq_true, List.cons_append]
        rw [← h3]

/-! ## Events of a trace -/

theorem sentEvents_append (xs ys : List Effect) :
    sentEvents (xs ++ ys) = sentEvents xs ++ sentEvents ys := by
  induction xs with
  | nil => simp [sentEvents]
  | cons e es ih => cases e <;> simp [sentEvents, ih]

theorem sentEvents_deltaSends (texts : List String) :
    sentEvents (deltaSends texts) = texts.map ProviderEvent.delta := by
  induction texts with
  | nil => simp [deltaSends, sentEvents]
  | cons d ds ih =>
    simp only [deltaSends, List.map_cons, sentEvents, List.cons.injEq, true_and] at ih ⊢
    exact ih

theorem deltaTexts_append (xs ys : List ProviderEvent) :
    deltaTexts (xs ++ ys) = deltaTexts xs ++ deltaTexts ys := by
  induction xs with
  | nil => simp [deltaTexts]
  | cons e es ih =>
    by_cases h : e.type = .contentDelta <;> simp [deltaTexts, h, ih]

theorem deltaTexts_map_delta (texts : List String) :
    deltaTexts (texts.map ProviderEvent.delta) = texts := by
  induction texts with
  | nil => simp [deltaTexts]
  | cons d ds ih => simp [deltaTexts, ProviderEvent.delta, ih]

theorem deltaTexts_terminal (t : ProviderEvent) (ht : t.isTerminal = true) :
    deltaTexts [t] = [] := by
  have h : t.type ≠ .contentDelta := by
    intro k
    simp [ProviderEvent.isTerminal, k] at ht
  simp [deltaTexts, h]

theorem events_after (effects : List Effect) (r : Run) :
    (r.after effects).events = sentEvents effects ++ r.events := by
  simp [Run.after, Run.events, sentEvents_append]

theorem exit_after (effects : List Effect) (r : Run) : (r.after effects).exit = r.exit := rfl

/-! ## One iteration of the retry loop -/

theorem finishAttempt_events (lower : Char → Char) (acc : ChatCompletion) (cur : String) :
    ((xai2Client.finishAttempt lower acc cur).exit = .panicked ∧
      (xai2Client.finishAttempt lower acc cur).events = []) ∨
    ((xai2Client.finishAttempt lower acc cur).exit = .returned ∧ ∃ t, t.isTerminal = true ∧
      (xai2Client.finishAttempt lower acc cur).events = [t] ∧
      ∀ resp, t.response = some resp → resp.content = cur) := by
  unfold xai2Client.finishAttempt
  by_cases hflag : xai2Client.isErrorContent lower cur = true
  · right
    rw [if_pos hflag]
    refine ⟨rfl, _, ?_, rfl, ?_⟩
    · rfl
    · intro resp h
      cases h
  · simp only [hflag, if_false, Bool.false_eq_true]
    cases hch : acc.choices with
    | nil => left; exact ⟨rfl, rfl⟩
    | cons first rest =>
      right
      refine ⟨rfl, _, ?_, rfl, ?_⟩
      · rfl
      · intro resp h
        simp only [ProviderEvent.completed, Option.some.injEq] at h
        rw [← h]

theorem handleStreamError_events (x : xai2Client) (a : Attempt) (n : Int)
    (started : List Effect) (e : GoError) :
    (∀ effects, xai2Client.handleStreamError x a n started e = .again effects →
      sentEvents effects = sentEvents started) ∧
    (∀ run, xai2Client.handleStreamError x a n started e = .done run →
      (run.exit = .panicked ∧ run.events = sentEvents started) ∨
      (run.exit = .returned ∧ ∃ t, t.isTerminal = true ∧ t.response = none ∧
        run.events = sentEvents started ++ [t])) := by
  unfold xai2Client.handleStreamError
  constructor
  · intro effects h
    split at h
    · cases h
    · split at h
      · cases h
      · split at h
        · split at h
          · cases h
          · cases h
            simp [sentEvents_append, sentEvents]
        · cases h
  · intro run h
    split at h
    · cases h
      left
      simp [Run.events, sentEvents_append, sentEvents]
    · right
      split at h
      · cases h
        refine ⟨rfl, _, ?_, ?_, (by simp only [Run.events, sentEvents_append, sentEvents]; rfl)⟩ <;> rfl
      · split at h
        · split at h
          · cases h
            refine ⟨rfl, _, ?_, ?_, (by simp only [Run.events, sentEvents_append, sentEvents]; rfl)⟩ <;> rfl
          · cases h
        · cases h
          refine ⟨rfl, _, ?_, ?_, (by simp only [Run.events, sentEvents_append, sentEvents]; rfl)⟩ <;> rfl

/-- What the caller sees of one iteration.  A `continue` has sent only the
clean deltas of the attempt; an iteration that ends the goroutine has sent
them and then either nothing (panic) or one terminal event; a `Complete`
carries the concatenation of all deltas of the attempt, none of which was
flagged. -/
theorem attemptStep_events (x : xai2Client) (lower : Char → Char) (a : Attempt) (n : Int) :
    (∀ effects, xai2Client.attemptStep x lower a n = .again effects →
      sentEvents effects = (cleanDeltas lower (chunkDeltas a.chunks)).map ProviderEvent.delta) ∧
    (∀ run, xai2Client.attemptStep x lower a n = .done run →
      (run.exit = .panicked ∧
        run.events = (cleanDeltas lower (chunkDeltas a.chunks)).map ProviderEvent.delta) ∨
      (run.exit = .returned ∧ ∃ t, t.isTerminal = true ∧
        run.events = (cleanDeltas lower (chunkDeltas a.chunks)).map ProviderEvent.delta ++ [t] ∧
        ∀ resp, t.response = some resp →
          cleanDeltas lower (chunkDeltas a.chunks) = chunkDeltas a.chunks ∧
          resp.content = concatStrings (chunkDeltas a.chunks))) := by
  have hproc := processChunks_eq lower a.chunks ""
  have hempty : "" ++ concatStrings (cleanDeltas lower (chunkDeltas a.chunks)) =
      concatStrings (cleanDeltas lower (chunkDeltas a.chunks)) := String.empty_append _
  rw [hempty] at hproc
  unfold xai2Client.attemptStep
  rw [hproc]
  have hstart : sentEvents (Effect.newStreaming n ::
      deltaSends (cleanDeltas lower (chunkDeltas a.chunks))) =
      (cleanDeltas lower (chunkDeltas a.chunks)).map ProviderEvent.delta := by
    simp [sentEvents, sentEvents_deltaSends]
  cases hff : firstFlagged lower (chunkDeltas a.chunks) with
  | some d =>
    simp only [Option.map_some', Option.isSome_some, Bool.not_true, Bool.false_eq_true, if_false,
      errorsIsEOF]
    have hh := handleStreamError_events x a n (Effect.newStreaming n ::
      deltaSends (cleanDeltas lower (chunkDeltas a.chunks))) (GoError.xai2ContentError 200 d)
    rw [hstart] at hh
    refine ⟨hh.1, ?_⟩
    intro run hrun
    rcases hh.2 run hrun with hp | ⟨hr, t, ht, hresp, hev⟩
    · exact Or.inl hp
    · exact Or.inr ⟨hr, t, ht, hev, by intro resp h; rw [hresp] at h; cases h⟩
  | none =>
    have hclean : cleanDeltas lower (chunkDeltas a.chunks) = chunkDeltas a.chunks := by
      have key : ∀ ds, firstFlagged lower ds = none → cleanDeltas lower ds = ds := by
        intro ds
        induction ds with
        | nil => intro _; rfl
        | cons y ys ih =>
          intro hy
          by_cases hflag : xai2Client.isErrorContent lower y = true
          · simp [firstFlagged, hflag] at hy
          · have hf : xai2Client.isErrorContent lower y = false := by simpa using hflag
            simp only [firstFlagged, hf, if_false, Bool.false_eq_true] at hy
            simp [cleanDeltas, hf, ih hy]
      exact key _ hff
    have hfin := finishAttempt_events lower a.acc
      (concatStrings (cleanDeltas lower (chunkDeltas a.chunks)))
    have hsucc : ∀ run, StepResult.done ((xai2Client.finishAttempt lower a.acc
        (concatStrings (cleanDeltas lower (chunkDeltas a.chunks)))).after
          (Effect.newStreaming n :: deltaSends (cleanDeltas lower (chunkDeltas a.chunks)))) =
        StepResult.done run →
        (run.exit = .panicked ∧
          run.events = (cleanDeltas lower (chunkDeltas a.chunks)).map ProviderEvent.delta) ∨
        (run.exit = .returned ∧ ∃ t, t.isTerminal = true ∧
          run.events = (cleanDeltas lower (chunkDeltas a.chunks)).map ProviderEvent.delta ++ [t] ∧
          ∀ resp, t.response = some resp →
            cleanDeltas lower (chunkDeltas a.chunks) = chunkDeltas a.chunks ∧
            resp.content = concatStrings (chunkDeltas a.chunks)) := by
      intro run hrun
      cases hrun
      rw [events_after, exit_after, hstart]
      rcases hfin with ⟨hp, hev⟩ | ⟨hr, t, ht, hev, hresp⟩
      · left
        exact ⟨hp, by rw [hev, List.append_nil]⟩
      · right
        refine ⟨hr, t, ht, by rw [hev], ?_⟩
        intro resp h
        refine ⟨hclean, ?_⟩
        rw [hresp resp h, hclean]
    simp only [Option.map_none', Option.isSome_none, Bool.not_false, if_true]
    cases herr : a.err with
    | none =>
      refine ⟨fun effects h => ?_, hsucc⟩
      cases h
    | some e =>
      simp only []
      by_cases heof : errorsIsEOF e = true
      · simp only [heof, if_true]
        refine ⟨fun effects h => ?_, hsucc⟩
        cases h
      · simp only [heof, if_false, Bool.false_eq_true]
        have hh := handleStreamError_events x a n (Effect.newStreaming n ::
          deltaSends (cleanDeltas lower (chunkDeltas a.chunks))) e
        rw [hstart] at hh
        refine ⟨hh.1, ?_⟩
        intro run hrun
        rcases hh.2 run hrun with hp | ⟨hr, t, ht, hresp, hev⟩
        · exact Or.inl hp
        · exact Or.inr ⟨hr, t, ht, hev, by intro resp h; rw [hresp] at h; cases h⟩

/-! ## The retry loop -/

/-- Shape of what the caller receives from the retry loop: content deltas, none
of which is error content on its own, then one terminal event if the goroutine
returns and nothing if it does not.  A `Complete` carries the concatenation of
the deltas of one attempt, which are the last deltas sent. -/
theorem streamLoop_events (x : xai2Client) (lower : Char → Char) (env : Int → Attempt)
    (fuel : Nat) (counter : Int) :
    ∃ texts : List String,
      (∀ d ∈ texts, xai2Client.isErrorContent lower d = false) ∧
      (((xai2Client.streamLoop x lower env fuel counter).exit = .returned ∧
          ∃ t, t.isTerminal = true ∧
            (xai2Client.streamLoop x lower env fuel counter).events =
              texts.map ProviderEvent.delta ++ [t] ∧
            ∀ resp, t.response = some resp → ∃ earlier n,
              texts = earlier ++ chunkDeltas (env n).chunks ∧
              resp.content = concatStrings (chunkDeltas (env n).chunks)) ∨
        ((xai2Client.streamLoop x lower env fuel counter).exit ≠ .returned ∧
          (xai2Client.streamLoop x lower env fuel counter).events =
            texts.map ProviderEvent.delta)) := by
  induction fuel generalizing counter with
  | zero =>
    refine ⟨[], by simp, Or.inr ⟨?_, rfl⟩⟩
    simp [xai2Client.streamLoop]
  | succ fuel ih =>
    have hstep := attemptStep_events x lower (env (counter + 1)) (counter + 1)
    have hcl := cleanDeltas_clean lower (chunkDeltas (env (counter + 1)).chunks)
    unfold xai2Client.streamLoop
    cases hs : xai2Client.attemptStep x lower (env (counter + 1)) (counter + 1) with
    | done run =>
      simp only []
      refine ⟨cleanDeltas lower (chunkDeltas (env (counter + 1)).chunks), hcl, ?_⟩
      rcases hstep.2 run hs with ⟨hp, hev⟩ | ⟨hr, t, ht, hev, hresp⟩
      · right
        exact ⟨by rw [hp]; simp, hev⟩
      · left
        refine ⟨hr, t, ht, hev, ?_⟩
        intro resp h
        obtain ⟨h1, h2⟩ := hresp resp h
        exact ⟨[], counter + 1, by rw [h1]; rfl, h2⟩
    | again effects =>
      simp only []
      obtain ⟨texts, hclean, hrest⟩ := ih (counter + 1)
      have heff := hstep.1 effects hs
      refine ⟨cleanDeltas lower (chunkDeltas (env (counter + 1)).chunks) ++ texts, ?_, ?_⟩
      · intro d hd
        rcases List.mem_append.mp hd with hd | hd
        · exact hcl d hd
        · exact hclean d hd
      · rw [events_after, exit_after, heff, List.map_append]
        rcases hrest with ⟨hr, t, ht, hev, hresp⟩ | ⟨hr, hev⟩
        · left
          refine ⟨hr, t, ht, by rw [hev, List.append_assoc], ?_⟩
          intro resp h
          obtain ⟨earlier, n, h1, h2⟩ := hresp resp h
          exact ⟨cleanDeltas lower (chunkDeltas (env (counter + 1)).chunks) ++ earlier, n,
            by rw [h1, List.append_assoc], h2⟩
        · right
          exact ⟨hr, by rw [hev]⟩

/-! ## The iteration bound of the model -/

theorem shouldRetry_exhausted (n : Int) (err : Option GoError) (h : n > xai2MaxRetries) :
    xai2Client.shouldRetry n err = some (false, 0, some (.errorString
      ("maximum retry attempts reached: " ++ toString xai2MaxRetries ++ " retries"))) := by
  simp only [xai2Client.shouldRetry, h, if_true]

theorem handleStreamError_again_le (x : xai2Client) (a : Attempt) (n : Int)
    (started effects : List Effect) (e : GoError)
    (h : xai2Client.handleStreamError x a n started e = .again effects) :
    n ≤ xai2MaxRetries := by
  by_contra hgt
  have hex := shouldRetry_exhausted n (some e) (not_le.mp hgt)
  unfold xai2Client.handleStreamError at h
  rw [hex] at h
  cases h

/-- The loop goes round again only from an attempt numbered at most
`xai2MaxRetries`. -/
theorem attemptStep_again_le (x : xai2Client) (lower : Char → Char) (a : Attempt) (n : Int)
    (effects : List Effect) (h : xai2Client.attemptStep x lower a n = .again effects) :
    n ≤ xai2MaxRetries := by
  unfold xai2Client.attemptStep at h
  rw [processChunks_eq] at h
  cases hff : firstFlagged lower (chunkDeltas a.chunks) with
  | some d =>
    simp only [hff, Option.map_some', errorsIsEOF, Bool.false_eq_true, if_false] at h
    exact handleStreamError_again_le x a n _ effects _ h
  | none =>
    simp only [hff, Option.map_none', Option.isSome_none, Bool.not_false, if_true] at h
    cases herr : a.err with
    | none =>
      rw [herr] at h
      cases h
    | some e =>
      rw [herr] at h
      by_cases heof : errorsIsEOF e = true
      · simp only [heof, if_true] at h
        cases h
      · simp only [heof, if_false, Bool.false_eq_true] at h
        exact handleStreamError_again_le x a n _ effects _ h

/-- The retry loop ends within the iterations it is given, once these reach
past attempt `xai2MaxRetries + 1`. -/
theorem streamLoop_within_fuel (x : xai2Client) (lower : Char → Char) (env : Int → Attempt)
    (fuel : Nat) (counter : Int) (hfuel : 1 ≤ fuel) (hreach : 9 ≤ counter + fuel) :
    (xai2Client.streamLoop x lower env fuel counter).exit ≠ .outOfFuel := by
  induction fuel generalizing counter with
  | zero => omega
  | succ fuel ih =>
    have hstep := attemptStep_events x lower (env (counter + 1)) (counter + 1)
    unfold xai2Client.streamLoop
    cases hs : xai2Client.attemptStep x lower (env (counter + 1)) (counter + 1) with
    | done run =>
      simp only []
      rcases hstep.2 run hs with ⟨hp, _⟩ | ⟨hr, _⟩
      · rw [hp]
        simp
      · rw [hr]
        simp
    | again effects =>
      simp only []
      have hle : counter + 1 ≤ 8 := attemptStep_again_le x lower _ _ effects hs
      rw [exit_after]
      have hcast : ((fuel + 1 : Nat) : Int) = (fuel : Int) + 1 := by push_cast; rfl
      rw [hcast] at hreach
      have hpos : 1 ≤ fuel := by omega
      exact ih (counter + 1) hpos (by omega)

/-- The nine iterations of `streamWithParams` always suffice. -/
theorem streamWithParams_ends (x : xai2Client) (lower : Char → Char) (env : Int → Attempt) :
    (xai2Client.streamWithParams x lower env).exit ≠ .outOfFuel :=
  streamLoop_within_fuel x lower env 9 0 (by decide) (by decide)

/-! ## C2: which content deltas reach the caller -/

/-- C2, as claimed, fails.  The deltas "I think", " you have",
" hit a rate limit, try again" concatenate to error content, yet the first two
are sent to the caller as `ContentDelta` events before the third is flagged. -/
theorem masked_attempt_leaks_deltas :
    xai2Client.isErrorContent Char.toLower (concatStrings (chunkDeltas maskedAttempt.chunks)) = true ∧
    (xai2Client.processChunks Char.toLower maskedAttempt.chunks "").sent =
      [.send (.delta "I think"), .send (.delta " you have")] ∧
    ((xai2Client.streamWithParams exampleClient Char.toLower fun _ => maskedAttempt).events).take 2 =
      [.delta "I think", .delta " you have"] := by
  decide

/-- C2, amended.  Each content delta is checked on its own before it is sent.
The `ContentDelta` events of an attempt are exactly its non-empty deltas that
precede the first delta that is error content on its own; that delta and all
later ones of the attempt are not sent, and so no `ContentDelta` that reaches
the caller during a call is error content on its own. -/
theorem content_delta_gate (x : xai2Client) (lower : Char → Char) (env : Int → Attempt) :
    (∀ chunks cur, (xai2Client.processChunks lower chunks cur).sent =
      deltaSends (cleanDeltas lower (chunkDeltas chunks))) ∧
    (∀ ds, ∀ d ∈ cleanDeltas lower ds, xai2Client.isErrorContent lower d = false) ∧
    (∀ ds, (firstFlagged lower ds = none ∧ cleanDeltas lower ds = ds) ∨
      (∃ d tail, firstFlagged lower ds = some d ∧ xai2Client.isErrorContent lower d = true ∧
        ds = cleanDeltas lower ds ++ d :: tail)) ∧
    (∀ ev ∈ (xai2Client.streamWithParams x lower env).events,
      ev.type = .contentDelta → xai2Client.isErrorContent lower ev.content = false) := by
  refine ⟨?_, cleanDeltas_clean lower, cleanDeltas_split lower, ?_⟩
  · intro chunks cur
    rw [processChunks_eq]
  · intro ev hev htype
    obtain ⟨texts, hclean, hshape⟩ := streamLoop_events x lower env 9 0
    have hmem : ev ∈ texts.map ProviderEvent.delta := by
      rcases hshape with ⟨_, t, ht, hevs, _⟩ | ⟨_, hevs⟩
      · have h1 : ev ∈ texts.map ProviderEvent.delta ++ [t] := by
          rw [← hevs]
          exact hev
        rcases List.mem_append.mp h1 with h2 | h2
        · exact h2
        · have h3 : ev = t := by simpa using h2
          subst h3
          simp [ProviderEvent.isTerminal, htype] at ht
      · rw [← hevs]
        exact hev
    obtain ⟨d, hd, hdev⟩ := List.mem_map.mp hmem
    subst hdev
    exact hclean d hd

/-! ## C3: a clean single attempt -/

/-- C3.  A first attempt whose stream ends without error, none of whose
non-empty deltas `d1..dn` is error content and whose concatenation is not
error content either, with finish reason "stop" and no tool call, delivers
`ContentDelta(d1)`, ..., `ContentDelta(dn)` in order, then one `Complete` with
content `d1 ++ ... ++ dn` and finish reason end-turn, and nothing else; the
goroutine then returns. -/
theorem clean_stream_delivers_deltas_then_complete (x : xai2Client) (lower : Char → Char)
    (env : Int → Attempt) (first : CompletionChoice) (rest : List CompletionChoice)
    (herr : (env 1).err = none)
    (hdeltas : ∀ d ∈ chunkDeltas (env 1).chunks, xai2Client.isErrorContent lower d = false)
    (hwhole : xai2Client.isErrorContent lower (concatStrings (chunkDeltas (env 1).chunks)) = false)
    (hacc : (env 1).acc.choices = first :: rest)
    (hstop : first.finishReason = "stop")
    (htools : first.messageToolCalls = []) :
    (xai2Client.streamWithParams x lower env).events =
      (chunkDeltas (env 1).chunks).map ProviderEvent.delta ++
        [.completed
          { content := concatStrings (chunkDeltas (env 1).chunks),
            toolCalls := [],
            usage := xai2Client.usage (env 1).acc,
            finishReason := .endTurn }] ∧
    (xai2Client.streamWithParams x lower env).exit = .returned ∧
    (xai2Client.streamWithParams x lower env).trace =
      .newStreaming 1 :: deltaSends (chunkDeltas (env 1).chunks) ++
        [.send (.completed
          { content := concatStrings (chunkDeltas (env 1).chunks),
            toolCalls := [],
            usage := xai2Client.usage (env 1).acc,
            finishReason := .endTurn }),
         .requestClear, .closeChan] := by
  obtain ⟨hcl, hff⟩ := cleanDeltas_of_all_clean lower _ hdeltas
  have hproc := processChunks_eq lower (env 1).chunks ""
  rw [hcl, hff, String.empty_append] at hproc
  have hstep : xai2Client.attemptStep x lower (env 1) 1 =
      .done ⟨.newStreaming 1 :: deltaSends (chunkDeltas (env 1).chunks) ++
          [.send (.completed
            { content := concatStrings (chunkDeltas (env 1).chunks),
              toolCalls := [],
              usage := xai2Client.usage (env 1).acc,
              finishReason := .endTurn }),
           .requestClear, .closeChan], .returned⟩ := by
    unfold xai2Client.attemptStep
    rw [hproc]
    simp [herr, xai2Client.finishAttempt, hwhole, hacc, hstop, htools, xai2Client.finishReason,
      Run.after]
  have hrun : xai2Client.streamWithParams x lower env =
      ⟨.newStreaming 1 :: deltaSends (chunkDeltas (env 1).chunks) ++
          [.send (.completed
            { content := concatStrings (chunkDeltas (env 1).chunks),
              toolCalls := [],
              usage := xai2Client.usage (env 1).acc,
              finishReason := .endTurn }),
           .requestClear, .closeChan], .returned⟩ := by
    unfold xai2Client.streamWithParams xai2Client.streamLoop
    have h01 : (0 : Int) + 1 = 1 := rfl
    rw [h01, hstep]
  rw [hrun]
  refine ⟨?_, rfl, rfl⟩
  simp [Run.events, sentEvents, sentEvents_append, sentEvents_deltaSends]

/-- C3, at the stream "Hello", " world": the caller receives
`ContentDelta("Hello")`, `ContentDelta(" world")` and `Complete` with content
"Hello world" and finish reason end-turn. -/
theorem clean_stream_hello_world :
    (xai2Client.streamWithParams exampleClient Char.toLower fun _ => helloAttempt).events =
      [.delta "Hello", .delta " world",
       .completed { content := "Hello world", toolCalls := [],
                    usage := { inputTokens := 10, outputTokens := 2,
                               cacheCreationTokens := 0, cacheReadTokens := 0 },
                    finishReason := .endTurn }] :=
  (clean_stream_delivers_deltas_then_complete exampleClient Char.toLower (fun _ => helloAttempt)
    { finishReason := "stop", messageContent := "Hello world", messageToolCalls := [] } []
    rfl (by decide) (by decide) rfl rfl rfl).1

/-! ## C4: terminal events -/

/-- A run of the retry loop that returns has sent content deltas and then
exactly one terminal event, which is its last event. -/
theorem returned_run_ends_with_one_terminal (x : xai2Client) (lower : Char → Char)
    (env : Int → Attempt)
    (hret : (xai2Client.streamWithParams x lower env).exit = .returned) :
    ∃ (texts : List String) (t : ProviderEvent), t.isTerminal = true ∧
      (xai2Client.streamWithParams x lower env).events = texts.map ProviderEvent.delta ++ [t] := by
  obtain ⟨texts, _, hshape⟩ := streamLoop_events x lower env 9 0
  rcases hshape with ⟨_, t, ht, hevs, _⟩ | ⟨hne, _⟩
  · exact ⟨texts, t, ht, hevs⟩
  · exact absurd hret hne

/-- C4 fails on a stream that ends at once, without chunk and without error.
Nothing has been accumulated, the read of `acc.ChatCompletion.Choices[0]` on
the success path panics, and the deferred `close` closes the channel: the
caller has received no terminal event, indeed no event at all. -/
theorem empty_stream_closes_without_terminal :
    xai2Client.streamWithParams exampleClient Char.toLower (fun _ => emptyAttempt) =
      { trace := [.newStreaming 1, .closeChan], exit := .panicked } ∧
    (xai2Client.streamWithParams exampleClient Char.toLower fun _ => emptyAttempt).events = [] := by
  decide

/-! ## C5: content of retried attempts -/

/-- C5, as claimed, fails.  The first attempt sends "Hello" and breaks with an
HTTP 500; the retry sends "Hello", " world" and completes.  The caller has
received the texts "Hello", "Hello", " world", whose concatenation is not the
content "Hello world" of the `Complete` event. -/
theorem retried_attempt_deltas_precede_final_content :
    (xai2Client.streamWithParams exampleClient Char.toLower retryThenHello).events =
      [.delta "Hello", .delta "Hello", .delta " world",
       .completed { content := "Hello world", toolCalls := [],
                    usage := { inputTokens := 10, outputTokens := 2,
                               cacheCreationTokens := 0, cacheReadTokens := 0 },
                    finishReason := .endTurn }] ∧
    concatStrings (deltaTexts
      (xai2Client.streamWithParams exampleClient Char.toLower retryThenHello).events) ≠
      "Hello world" := by
  decide

/-- C5, amended.  When a call ends with a `Complete` event, the content of
that event is the concatenation of the deltas of the attempt that completed,
and these are the last `ContentDelta` events sent.  The `ContentDelta` events
that retried attempts sent before they failed precede them, so the
concatenation of all `ContentDelta` texts of the call is the text of those
earlier events followed by `Complete.Response.Content`. -/
theorem complete_content_is_final_attempt (x : xai2Client) (lower : Char → Char)
    (env : Int → Attempt) (before : List ProviderEvent) (ev : ProviderEvent)
    (resp : ProviderResponse)
    (hlast : (xai2Client.streamWithParams x lower env).events = before ++ [ev])
    (hcomplete : ev.type = .complete)
    (hresp : ev.response = some resp) :
    ∃ earlier n,
      deltaTexts (xai2Client.streamWithParams x lower env).events =
        earlier ++ chunkDeltas (env n).chunks ∧
      resp.content = concatStrings (chunkDeltas (env n).chunks) ∧
      concatStrings (deltaTexts (xai2Client.streamWithParams x lower env).events) =
        concatStrings earlier ++ resp.content := by
  obtain ⟨texts, _, hshape⟩ := streamLoop_events x lower env 9 0
  have hev : (xai2Client.streamWithParams x lower env).events =
      (xai2Client.streamLoop x lower env 9 0).events := rfl
  rcases hshape with ⟨_, t, ht, hevs, hfinal⟩ | ⟨_, hevs⟩
  · have heq : before ++ [ev] = texts.map ProviderEvent.delta ++ [t] := by
      rw [← hlast, hev, hevs]
    have ht_ev : ev = t := by
      have h := congrArg List.getLast? heq
      simpa using h
    subst ht_ev
    obtain ⟨earlier, n, htexts, hcontent⟩ := hfinal resp hresp
    have hdt : deltaTexts (xai2Client.streamWithParams x lower env).events =
        earlier ++ chunkDeltas (env n).chunks := by
      rw [hev, hevs, deltaTexts_append, deltaTexts_map_delta, deltaTexts_terminal ev ht,
        List.append_nil, htexts]
    exact ⟨earlier, n, hdt, hcontent, by rw [hdt, concatStrings_append, hcontent]⟩
  · exfalso
    have heq : before ++ [ev] = texts.map ProviderEvent.delta := by
      rw [← hlast, hev, hevs]
    have hmem : ev ∈ texts.map ProviderEvent.delta := by
      rw [← heq]
      simp
    obtain ⟨d, _, hd⟩ := List.mem_map.mp hmem
    rw [← hd] at hcomplete
    simp [ProviderEvent.delta] at hcomplete

/-- C5, amended, at the retried call "Hello" / "Hello", " world": the content
"Hello world" of the `Complete` event is the text of the second attempt, and
the texts of the whole call are "Hello" followed by it. -/
theorem complete_content_is_final_attempt_retry :
    ∃ earlier n,
      deltaTexts (xai2Client.streamWithParams exampleClient Char.toLower retryThenHello).events =
        earlier ++ chunkDeltas (retryThenHello n).chunks ∧
      "Hello world" = concatStrings (chunkDeltas (retryThenHello n).chunks) ∧
      concatStrings (deltaTexts
        (xai2Client.streamWithParams exampleClient Char.toLower retryThenHello).events) =
        concatStrings earlier ++ "Hello world" :=
  complete_content_is_final_attempt exampleClient Char.toLower retryThenHello
    [.delta "Hello", .delta "Hello", .delta " world"]
    (.completed { content := "Hello world", toolCalls := [],
                  usage := { inputTokens := 10, outputTokens := 2,
                             cacheCreationTokens := 0, cacheReadTokens := 0 },
                  finishReason := .endTurn })
    { content := "Hello world", toolCalls := [],
      usage := { inputTokens := 10, outputTokens := 2,
                 cacheCreationTokens := 0, cacheReadTokens := 0 },
      finishReason := .endTurn }
    (by decide) rfl rfl

/-! ## C6: masked content found at the end of the stream -/

/-- C6 fails on the deltas "rate li", "mit".  Neither is flagged on its own,
the accumulated text "rate limit" is; `shouldRetry` would decide a retry after
2400 ms for that content error on attempt 1, but the success path does not
ask it: both deltas have been sent, the content error is sent as the terminal
`Error` event and the goroutine returns after this single attempt. -/
theorem split_phrase_ends_call_without_retry :
    xai2Client.streamWithParams exampleClient Char.toLower (fun _ => splitPhraseAttempt) =
      { trace := [.newStreaming 1, .send (.delta "rate li"), .send (.delta "mit"),
                  .send (.failed (some (.xai2ContentError 200 "rate limit"))),
                  .requestClear, .closeChan],
        exit := .returned } ∧
    xai2Client.shouldRetry 1 (some (.xai2ContentError 200 "rate limit")) =
      some (true, 2400, none) := by
  decide

/-- Every attempt that ends without error and without a flagged delta, but
whose accumulated text is error content, ends the call: the deltas have been
sent, the content error follows as the terminal `Error` event, and the
goroutine returns, whatever the attempt number. -/
theorem attemptStep_masked_at_end (x : xai2Client) (lower : Char → Char) (a : Attempt) (n : Int)
    (hdeltas : ∀ d ∈ chunkDeltas a.chunks, xai2Client.isErrorContent lower d = false)
    (herr : a.err = none)
    (hwhole : xai2Client.isErrorContent lower (concatStrings (chunkDeltas a.chunks)) = true) :
    xai2Client.attemptStep x lower a n =
      .done ⟨.newStreaming n :: deltaSends (chunkDeltas a.chunks) ++
        [.send (.failed (some (.xai2ContentError 200 (concatStrings (chunkDeltas a.chunks))))),
         .requestClear, .closeChan], .returned⟩ := by
  obtain ⟨hcl, hff⟩ := cleanDeltas_of_all_clean lower _ hdeltas
  have hproc := processChunks_eq lower a.chunks ""
  rw [hcl, hff, String.empty_append] at hproc
  unfold xai2Client.attemptStep
  rw [hproc]
  simp [herr, xai2Client.finishAttempt, hwhole, Run.after]

/-! ## The retry policy -/

/-- An API error is not a content error of either client. -/
theorem asContentError_of_asAPIError (e : GoError) (status : Int)
    (h : asAPIError e = some status) :
    asXai2ContentError e = none ∧ asXaiContentError e = none := by
  induction e with
  | wrapped msg inner ih =>
    simp only [asAPIError] at h
    simpa [asXai2ContentError, asXaiContentError] using ih h
  | apiError s m r => simp [asXai2ContentError, asXaiContentError]
  | _ => simp [asAPIError] at h

/-- The shift `1 << (a - 1)` for the attempt numbers 1 to 8. -/
theorem shiftLeftOne_attempt (a : Int) (h1 : 1 ≤ a) (h8 : a ≤ 8) :
    shiftLeftOne (a - 1) = some (2 ^ (a - 1).toNat) := by
  interval_cases a <;> decide

/-- The backoff `2000 * (1 << (a - 1))` for the attempt numbers 1 to 8: no
wrap-around. -/
theorem backoff_attempt (a : Int) (h1 : 1 ≤ a) (h8 : a ≤ 8) :
    wrapInt64 (2000 * 2 ^ (a - 1).toNat) = 2000 * 2 ^ (a - 1).toNat := by
  interval_cases a <;> decide

/-- The jitter `int(float64(backoffMs) * 0.2)` for the attempt numbers 1 to 8
is a fifth of the backoff, and the sum does not wrap. -/
theorem jitter_attempt (a : Int) (h1 : 1 ≤ a) (h8 : a ≤ 8) :
    jitterOf (2000 * 2 ^ (a - 1).toNat) = 2000 * 2 ^ (a - 1).toNat / 5 ∧
    wrapInt64 (2000 * 2 ^ (a - 1).toNat + jitterOf (2000 * 2 ^ (a - 1).toNat)) =
      2400 * 2 ^ (a - 1).toNat := by
  interval_cases a <;> decide

/-- C7.  For a content-masked error and an attempt number `a` from 1 to 8,
`xai2Client.shouldRetry` returns retry, no error, and the delay
`2000 * 2^(a-1) + floor(0.2 * 2000 * 2^(a-1)) = 2400 * 2^(a-1)` milliseconds;
`xaiClient.shouldRetry` returns the same for its own content error when `a`
does not exceed `maxRetries`. -/
theorem content_error_retry_delay (a : Int) (e e' : GoError) (maxRetries : Int)
    (openaiShouldRetry : Int → Option GoError → Option RetryDecision)
    (h1 : 1 ≤ a) (h8 : a ≤ xai2MaxRetries)
    (he : (asXai2ContentError e).isSome = true)
    (he' : (asXaiContentError e').isSome = true) :
    xai2Client.shouldRetry a (some e) = some (true, 2400 * 2 ^ (a - 1).toNat, none) ∧
    (2400 * 2 ^ (a - 1).toNat : Int) =
      2000 * 2 ^ (a - 1).toNat + jitterOf (2000 * 2 ^ (a - 1).toNat) ∧
    jitterOf (2000 * 2 ^ (a - 1).toNat) = 2000 * 2 ^ (a - 1).toNat / 5 ∧
    (a ≤ maxRetries →
      xaiClient.shouldRetry maxRetries openaiShouldRetry a (some e') =
        some (true, 2400 * 2 ^ (a - 1).toNat, none)) := by
  have h8' : a ≤ 8 := h8
  have hnot : ¬ a > xai2MaxRetries := not_lt.mpr h8
  have hshift := shiftLeftOne_attempt a h1 h8'
  have hback := backoff_attempt a h1 h8'
  obtain ⟨hjit, hsum⟩ := jitter_attempt a h1 h8'
  obtain ⟨p, hp⟩ := Option.isSome_iff_exists.mp he
  obtain ⟨p', hp'⟩ := Option.isSome_iff_exists.mp he'
  refine ⟨?_, ?_, hjit, ?_⟩
  · simp only [xai2Client.shouldRetry, hnot, if_false, hp, hshift, hback, hsum]
  · interval_cases a <;> decide
  · intro hmax
    have hnot' : ¬ a > maxRetries := not_lt.mpr hmax
    simp only [xaiClient.shouldRetry, hnot', if_false, hp', hshift, hback, hsum]

/-- C7 at attempt 3: both clients wait 9600 ms. -/
theorem content_error_retry_delay_attempt3 :
    xai2Client.shouldRetry 3 (some (.xai2ContentError 200 "rate limit")) =
      some (true, 9600, none) ∧
    xaiClient.shouldRetry 8 (fun _ err => some (false, 0, err)) 3
      (some (.xaiContentError 429 "rate limit")) = some (true, 9600, none) :=
  have h := content_error_retry_delay 3 (.xai2ContentError 200 "rate limit")
    (.xaiContentError 429 "rate limit") 8 (fun _ err => some (false, 0, err))
    (by decide) (by decide) rfl rfl
  ⟨h.1, h.2.2.2 (by decide)⟩

/-- C9.  For an API error with status 429 whose text contains the quota
phrase, and any attempt number, both `xaiClient.shouldRetry` and
`xai2Client.shouldRetry` return no retry, delay 0 and an error: the quota
error, or for `xai2Client` beyond attempt 8 the maximum-retries error. -/
theorem quota_error_never_retried (a : Int) (e : GoError) (maxRetries : Int)
    (openaiShouldRetry : Int → Option GoError → Option RetryDecision)
    (hstatus : asAPIError e = some 429)
    (hquota : stringsContains e.Error quotaExceededPattern = true) :
    (∃ fatal, xai2Client.shouldRetry a (some e) = some (false, 0, some fatal)) ∧
    (a ≤ xai2MaxRetries → xai2Client.shouldRetry a (some e) =
      some (false, 0, some (.errorString ("xAI quota exceeded: " ++ e.Error)))) ∧
    xaiClient.shouldRetry maxRetries openaiShouldRetry a (some e) =
      some (false, 0, some (.errorString ("xAI quota exceeded: " ++ e.Error))) := by
  obtain ⟨hc2, hc⟩ := asContentError_of_asAPIError e 429 hstatus
  have hquota' : stringsContains e.Error "credits or reached its monthly spending limit" = true :=
    hquota
  have hle : a ≤ xai2MaxRetries → xai2Client.shouldRetry a (some e) =
      some (false, 0, some (.errorString ("xAI quota exceeded: " ++ e.Error))) := by
    intro h
    have hnot : ¬ a > xai2MaxRetries := not_lt.mpr h
    simp [xai2Client.shouldRetry, hnot, hc2, hstatus, hquota]
  refine ⟨?_, hle, ?_⟩
  · by_cases hgt : a > xai2MaxRetries
    · exact ⟨.errorString
        ("maximum retry attempts reached: " ++ toString xai2MaxRetries ++ " retries"),
        by simp only [xai2Client.shouldRetry, hgt, if_true]⟩
    · exact ⟨_, hle (not_lt.mp hgt)⟩
  · simp [xaiClient.shouldRetry, hc, hstatus, hquota']

/-- C9 at the quota error of the xAI backend, on attempt 1. -/
theorem quota_error_never_retried_attempt1 :
    xai2Client.shouldRetry 1 (some quotaError) =
      some (false, 0, some (.errorString ("xAI quota exceeded: " ++ quotaError.Error))) ∧
    xaiClient.shouldRetry 8 (fun _ _ => some (true, 2000, none)) 1 (some quotaError) =
      some (false, 0, some (.errorString ("xAI quota exceeded: " ++ quotaError.Error))) :=
  have h := quota_error_never_retried 1 quotaError 8 (fun _ _ => some (true, 2000, none))
    rfl (by decide)
  ⟨h.2.1 (by decide), h.2.2⟩

/-- C10.  For an API error with status 429 or 500 that is not a quota error
and an attempt number `a` from 1 to 8, `xai2Client.shouldRetry` returns retry,
no error, and the delay `2000 * 2^(a-1)` milliseconds, without jitter. -/
theorem status_error_backoff (a : Int) (e : GoError) (status : Int)
    (h1 : 1 ≤ a) (h8 : a ≤ xai2MaxRetries)
    (hapi : asAPIError e = some status)
    (hstatus : status = 429 ∨ status = 500)
    (hquota : ¬ (status = 429 ∧ stringsContains e.Error quotaExceededPattern = true)) :
    xai2Client.shouldRetry a (some e) = some (true, 2000 * 2 ^ (a - 1).toNat, none) := by
  obtain ⟨hc2, _⟩ := asContentError_of_asAPIError e status hapi
  have hnot : ¬ a > xai2MaxRetries := not_lt.mpr h8
  have hshift := shiftLeftOne_attempt a h1 h8
  have hback := backoff_attempt a h1 h8
  simp only [xai2Client.shouldRetry, hnot, if_false, hc2, hapi, hquota, hstatus, if_true, hshift,
    hback]

/-- C10 at an HTTP 500 on attempt 4: the delay is 16000 ms. -/
theorem status_error_backoff_500_attempt4 :
    xai2Client.shouldRetry 4 (some (.apiError 500 "500 Internal Server Error" [])) =
      some (true, 16000, none) :=
  status_error_backoff 4 (.apiError 500 "500 Internal Server Error" []) 500
    (by decide) (by decide) rfl (Or.inr rfl) (by decide)

/-! ## The retry policy: exhaustion, other errors, well-formed decisions -/

/-- C11.  For every error, nil included, and every attempt number beyond
`xai2MaxRetries`, `xai2Client.shouldRetry` returns no retry, delay 0 and the
error "maximum retry attempts reached: 8 retries"; `xaiClient.shouldRetry`
returns no retry, delay 0 and its own maximum-retries error for a content
error beyond `maxRetries`. -/
theorem retries_exhausted (a : Int) (err : Option GoError) (e' : GoError) (maxRetries : Int)
    (openaiShouldRetry : Int → Option GoError → Option RetryDecision)
    (ha : a > xai2MaxRetries)
    (he' : (asXaiContentError e').isSome = true) :
    xai2Client.shouldRetry a err =
      some (false, 0, some (.errorString "maximum retry attempts reached: 8 retries")) ∧
    (a > maxRetries →
      xaiClient.shouldRetry maxRetries openaiShouldRetry a (some e') =
        some (false, 0, some (.errorString
          ("maximum retry attempts reached for xAI rate limit: " ++ toString maxRetries ++
            " retries")))) := by
  obtain ⟨p', hp'⟩ := Option.isSome_iff_exists.mp he'
  constructor
  · rw [shouldRetry_exhausted a err ha]
    decide
  · intro hmax
    simp only [xaiClient.shouldRetry, hp', hmax, if_true]

/-- C11 at attempt 9 with an HTTP 429 error, and at attempt `maxRetries + 1 = 9`
with a content error of `xaiClient`. -/
theorem retries_exhausted_attempt9 :
    xai2Client.shouldRetry 9 (some rateLimitError) =
      some (false, 0, some (.errorString "maximum retry attempts reached: 8 retries")) ∧
    xaiClient.shouldRetry 8 (fun _ err => some (false, 0, err)) 9
      (some (.xaiContentError 429 "rate limit")) =
      some (false, 0, some (.errorString
        ("maximum retry attempts reached for xAI rate limit: " ++ toString (8 : Int) ++
          " retries"))) :=
  have h := retries_exhausted 9 (some rateLimitError) (.xaiContentError 429 "rate limit") 8
    (fun _ err => some (false, 0, err)) (by decide) rfl
  ⟨h.1, h.2 (by decide)⟩

/-- C12.  For an attempt number up to 8, so for each of 1 to 8, and an error that is neither a
content-masked error nor an API error with status 429 or 500,
`xai2Client.shouldRetry` returns no retry, delay 0 and the very same error. -/
theorem other_error_returned_unchanged (a : Int) (e : GoError)
    (h8 : a ≤ xai2MaxRetries)
    (hcontent : asXai2ContentError e = none)
    (hstatus : ∀ status, asAPIError e = some status → status ≠ 429 ∧ status ≠ 500) :
    xai2Client.shouldRetry a (some e) = some (false, 0, some e) := by
  have hnot : ¬ a > xai2MaxRetries := not_lt.mpr h8
  cases hapi : asAPIError e with
  | none => simp only [xai2Client.shouldRetry, hnot, if_false, hcontent, hapi]
  | some status =>
    obtain ⟨h429, h500⟩ := hstatus status hapi
    simp only [xai2Client.shouldRetry, hnot, if_false, hcontent, hapi, h429, h500, false_and,
      or_self]

/-- C12 at a plain I/O error and at an API error with status 400, on
attempt 1. -/
theorem other_error_returned_unchanged_examples :
    xai2Client.shouldRetry 1 (some (.errorString "connection reset by peer")) =
      some (false, 0, some (.errorString "connection reset by peer")) ∧
    xai2Client.shouldRetry 1 (some (.apiError 400 "400 Bad Request" [])) =
      some (false, 0, some (.apiError 400 "400 Bad Request" [])) :=
  ⟨other_error_returned_unchanged 1 (.errorString "connection reset by peer")
      (by decide) rfl (by intro status h; cases h),
   other_error_returned_unchanged 1 (.apiError 400 "400 Bad Request" [])
      (by decide) rfl
      (by intro status h; cases h; exact ⟨by decide, by decide⟩)⟩

/-- C13.  For every attempt number from 1 on and every non-nil error,
`xai2Client.shouldRetry` returns a decision (it does not panic), and the
decision is well formed: without retry the error is non-nil; with retry the
error is nil and the delay is positive. -/
theorem decision_well_formed (a : Int) (e : GoError) (h1 : 1 ≤ a) :
    ∃ retry after fatal,
      xai2Client.shouldRetry a (some e) = some (retry, after, fatal) ∧
      (retry = false → fatal ≠ none) ∧
      (retry = true → fatal = none ∧ 0 < after) ∧
      ¬ (retry = false ∧ fatal = none) := by
  by_cases hgt : a > xai2MaxRetries
  · exact ⟨false, 0, _, shouldRetry_exhausted a (some e) hgt, by simp, by simp, by simp⟩
  · have h8 : a ≤ xai2MaxRetries := not_lt.mp hgt
    have hshift := shiftLeftOne_attempt a h1 h8
    have hback := backoff_attempt a h1 h8
    obtain ⟨_, hsum⟩ := jitter_attempt a h1 h8
    have hpow : (0 : Int) < 2 ^ (a - 1).toNat := by positivity
    cases hc : asXai2ContentError e with
    | some p =>
      refine ⟨true, 2400 * 2 ^ (a - 1).toNat, none, ?_, by simp, ?_, by simp⟩
      · simp only [xai2Client.shouldRetry, hgt, if_false, hc, hshift, hback, hsum]
      · intro _
        exact ⟨rfl, by omega⟩
    | none =>
      cases hapi : asAPIError e with
      | none =>
        exact ⟨false, 0, some e,
          by simp only [xai2Client.shouldRetry, hgt, if_false, hc, hapi], by simp, by simp,
          by simp⟩
      | some status =>
        by_cases hq : status = 429 ∧ stringsContains e.Error quotaExceededPattern = true
        · exact ⟨false, 0, some (.errorString ("xAI quota exceeded: " ++ e.Error)),
            by simp only [xai2Client.shouldRetry, hgt, if_false, hc, hapi, hq, and_self, if_true],
            by simp, by simp, by simp⟩
        · by_cases hs : status = 429 ∨ status = 500
          · refine ⟨true, 2000 * 2 ^ (a - 1).toNat, none, ?_, by simp, ?_, by simp⟩
            · simp only [xai2Client.shouldRetry, hgt, if_false, hc, hapi, hq, hs, if_true,
                hshift, hback]
            · intro _
              exact ⟨rfl, by omega⟩
          · exact ⟨false, 0, some e,
              by simp only [xai2Client.shouldRetry, hgt, if_false, hc, hapi, hq, hs],
              by simp, by simp, by simp⟩

/-- C13 at a content error on attempt 1: retry after 2400 ms, no error. -/
theorem decision_well_formed_attempt1 :
    ∃ retry after fatal,
      xai2Client.shouldRetry 1 (some (.xai2ContentError 200 "rate limit")) =
        some (retry, after, fatal) ∧
      (retry = false → fatal ≠ none) ∧
      (retry = true → fatal = none ∧ 0 < after) ∧
      ¬ (retry = false ∧ fatal = none) :=
  decision_well_formed 1 (.xai2ContentError 200 "rate limit") (by decide)

/-! ## The retry loop: bound on the attempts -/

/-- One iteration, by the error the attempt ends with: without error the
success path, with an error the error block. -/
theorem attemptStep_eq (x : xai2Client) (lower : Char → Char) (a : Attempt) (n : Int) :
    xai2Client.attemptStep x lower a n =
      match xai2Client.attemptError lower a with
      | some e =>
        xai2Client.handleStreamError x a n
          (.newStreaming n :: deltaSends (cleanDeltas lower (chunkDeltas a.chunks))) e
      | none =>
        .done ((xai2Client.finishAttempt lower a.acc
          (concatStrings (chunkDeltas a.chunks))).after
            (.newStreaming n :: deltaSends (chunkDeltas a.chunks))) := by
  have hproc := processChunks_eq lower a.chunks ""
  rw [String.empty_append] at hproc
  unfold xai2Client.attemptStep xai2Client.attemptError
  rw [hproc]
  rcases cleanDeltas_split lower (chunkDeltas a.chunks) with ⟨hff, hcl⟩ | ⟨d, tail, hff, _, _⟩
  · rw [hff, hcl]
    cases herr : a.err with
    | none => rfl
    | some e =>
      by_cases heof : errorsIsEOF e = true
      · simp [heof]
      · simp [heof]
  · rw [hff]
    simp [errorsIsEOF]

theorem attemptsStarted_append (xs ys : List Effect) :
    attemptsStarted (xs ++ ys) = attemptsStarted xs + attemptsStarted ys := by
  induction xs with
  | nil => simp [attemptsStarted]
  | cons e es ih =>
    cases e <;> simp [attemptsStarted, ih]
    omega

theorem attemptsStarted_deltaSends (texts : List String) :
    attemptsStarted (deltaSends texts) = 0 := by
  induction texts with
  | nil => rfl
  | cons d ds ih =>
    simp only [deltaSends, List.map_cons, attemptsStarted] at ih ⊢
    exact ih

theorem attemptsStarted_after (effects : List Effect) (r : Run) :
    attemptsStarted (r.after effects).trace = attemptsStarted effects + attemptsStarted r.trace := by
  simp [Run.after, attemptsStarted_append]

theorem handleStreamError_attempts (x : xai2Client) (a : Attempt) (n : Int)
    (started : List Effect) (e : GoError) :
    (∀ effects, xai2Client.handleStreamError x a n started e = .again effects →
      attemptsStarted effects = attemptsStarted started) ∧
    (∀ run, xai2Client.handleStreamError x a n started e = .done run →
      attemptsStarted run.trace = attemptsStarted started) := by
  unfold xai2Client.handleStreamError
  constructor
  · intro effects h
    split at h
    · cases h
    · split at h
      · cases h
      · split at h
        · split at h
          · cases h
          · cases h
            simp [attemptsStarted_append, attemptsStarted]
        · cases h
  · intro run h
    split at h
    · cases h
      simp [attemptsStarted_append, attemptsStarted]
    · split at h
      · cases h
        simp [attemptsStarted_append, attemptsStarted]
      · split at h
        · split at h
          · cases h
            simp [attemptsStarted_append, attemptsStarted]
          · cases h
        · cases h
          simp [attemptsStarted_append, attemptsStarted]

theorem finishAttempt_attempts (lower : Char → Char) (acc : ChatCompletion) (cur : String) :
    attemptsStarted (xai2Client.finishAttempt lower acc cur).trace = 0 := by
  unfold xai2Client.finishAttempt
  split
  · rfl
  · split <;> rfl

/-- Every iteration starts exactly one network attempt. -/
theorem attemptStep_attempts (x : xai2Client) (lower : Char → Char) (a : Attempt) (n : Int) :
    (∀ effects, xai2Client.attemptStep x lower a n = .again effects →
      attemptsStarted effects = 1) ∧
    (∀ run, xai2Client.attemptStep x lower a n = .done run →
      attemptsStarted run.trace = 1) := by
  rw [attemptStep_eq]
  cases xai2Client.attemptError lower a with
  | some e =>
    have h := handleStreamError_attempts x a n
      (.newStreaming n :: deltaSends (cleanDeltas lower (chunkDeltas a.chunks))) e
    have hone : attemptsStarted
        (.newStreaming n :: deltaSends (cleanDeltas lower (chunkDeltas a.chunks))) = 1 := by
      simp [attemptsStarted, attemptsStarted_deltaSends]
    rw [hone] at h
    exact h
  | none =>
    constructor
    · intro effects h
      cases h
    · intro run h
      cases h
      rw [attemptsStarted_after, finishAttempt_attempts]
      simp [attemptsStarted, attemptsStarted_deltaSends]

/-- From an attempt counter of at most 8 the loop starts at most `9 - counter`
attempts, whatever the number of iterations it is given. -/
theorem streamLoop_attempts_le (x : xai2Client) (lower : Char → Char) (env : Int → Attempt)
    (fuel : Nat) (counter : Int) (hcounter : counter ≤ 8) :
    (attemptsStarted (xai2Client.streamLoop x lower env fuel counter).trace : Int) ≤
      9 - counter := by
  induction fuel generalizing counter with
  | zero =>
    simp only [xai2Client.streamLoop, attemptsStarted]
    omega
  | succ fuel ih =>
    have hstep := attemptStep_attempts x lower (env (counter + 1)) (counter + 1)
    unfold xai2Client.streamLoop
    cases hs : xai2Client.attemptStep x lower (env (counter + 1)) (counter + 1) with
    | done run =>
      simp only []
      rw [hstep.2 run hs]
      omega
    | again effects =>
      simp only []
      have hle : counter + 1 ≤ 8 := attemptStep_again_le x lower _ _ effects hs
      have hrec := ih (counter + 1) hle
      rw [attemptsStarted_after, hstep.1 effects hs]
      push_cast
      omega

/-- More iterations than the loop needs do not change the run. -/
theorem streamLoop_more_fuel (x : xai2Client) (lower : Char → Char) (env : Int → Attempt)
    (fuel extra : Nat) (counter : Int)
    (hends : (xai2Client.streamLoop x lower env fuel counter).exit ≠ .outOfFuel) :
    xai2Client.streamLoop x lower env (fuel + extra) counter =
      xai2Client.streamLoop x lower env fuel counter := by
  induction fuel generalizing counter with
  | zero =>
    exfalso
    exact hends rfl
  | succ fuel ih =>
    have hadd : fuel + 1 + extra = (fuel + extra) + 1 := by omega
    rw [hadd]
    unfold xai2Client.streamLoop at hends ⊢
    cases hs : xai2Client.attemptStep x lower (env (counter + 1)) (counter + 1) with
    | done run => rfl
    | again effects =>
      rw [hs] at hends
      simp only [] at hends ⊢
      rw [exit_after] at hends
      rw [ih (counter + 1) hends]

/-- The decision for a content error on the attempts 1 to 8. -/
theorem shouldRetry_content_error (a : Int) (e : GoError) (h1 : 1 ≤ a) (h8 : a ≤ xai2MaxRetries)
    (he : (asXai2ContentError e).isSome = true) :
    xai2Client.shouldRetry a (some e) = some (true, 2400 * 2 ^ (a - 1).toNat, none) := by
  have hnot : ¬ a > xai2MaxRetries := not_lt.mpr h8
  have hshift := shiftLeftOne_attempt a h1 h8
  have hback := backoff_attempt a h1 h8
  obtain ⟨_, hsum⟩ := jitter_attempt a h1 h8
  obtain ⟨p, hp⟩ := Option.isSome_iff_exists.mp he
  simp only [xai2Client.shouldRetry, hnot, if_false, hp, hshift, hback, hsum]

/-- An attempt that ends with an error for which `shouldRetry` decides a
retry, with no cancellation during the wait, makes the loop go round again. -/
theorem attemptStep_retry (x : xai2Client) (lower : Char → Char) (a : Attempt) (n : Int)
    (e : GoError) (after : Int)
    (herr : xai2Client.attemptError lower a = some e)
    (hretry : xai2Client.shouldRetry n (some e) = some (true, after, none))
    (hctx : a.ctxDone = none) :
    xai2Client.attemptStep x lower a n =
      .again (.newStreaming n :: deltaSends (cleanDeltas lower (chunkDeltas a.chunks)) ++
        [.requestClear, .backoffWait after, .requestSetCurrent x.requestInfo]) := by
  rw [attemptStep_eq, herr]
  simp [xai2Client.handleStreamError, hretry, hctx]

/-- An attempt beyond `xai2MaxRetries` that ends with an error ends the call
with the maximum-retries error as its terminal `Error` event. -/
theorem attemptStep_exhausted (x : xai2Client) (lower : Char → Char) (a : Attempt) (n : Int)
    (e : GoError)
    (herr : xai2Client.attemptError lower a = some e)
    (hn : n > xai2MaxRetries) :
    xai2Client.attemptStep x lower a n =
      .done ⟨.newStreaming n :: deltaSends (cleanDeltas lower (chunkDeltas a.chunks)) ++
        [.requestClear, .send (.failed (some xai2MaxRetriesError)), .closeChan], .returned⟩ := by
  have hex : xai2Client.shouldRetry n (some e) = some (false, 0, some xai2MaxRetriesError) := by
    rw [shouldRetry_exhausted n (some e) hn]
    decide
  rw [attemptStep_eq, herr]
  simp [xai2Client.handleStreamError, hex]

/-- When every attempt from `counter + 1` to 8 is retried and attempt 9 ends
with an error, the loop started at `counter` starts the attempts up to 9 and no
further one, and ends with the maximum-retries error as its only terminal
event. -/
theorem streamLoop_all_fail (x : xai2Client) (lower : Char → Char) (env : Int → Attempt)
    (hretried : ∀ n : Int, 1 ≤ n → n ≤ 8 → (env n).ctxDone = none ∧ ∃ e after,
      xai2Client.attemptError lower (env n) = some e ∧
      xai2Client.shouldRetry n (some e) = some (true, after, none))
    (hlast : ∃ e, xai2Client.attemptError lower (env 9) = some e)
    (j : Nat) (counter : Int) (fuel : Nat)
    (hj : counter + j = 8) (hcounter : 0 ≤ counter) (hfuel : j + 1 ≤ fuel) :
    (xai2Client.streamLoop x lower env fuel counter).exit = .returned ∧
    attemptsStarted (xai2Client.streamLoop x lower env fuel counter).trace = j + 1 ∧
    ∃ texts : List String,
      (xai2Client.streamLoop x lower env fuel counter).events =
        texts.map ProviderEvent.delta ++ [.failed (some xai2MaxRetriesError)] := by
  induction j generalizing counter fuel with
  | zero =>
    obtain ⟨fuel', rfl⟩ : ∃ f, fuel = f + 1 := ⟨fuel - 1, by omega⟩
    have hc : counter = 8 := by simpa using hj
    subst hc
    obtain ⟨e, he⟩ := hlast
    have hstep := attemptStep_exhausted x lower (env 9) 9 e he (by decide)
    have h89 : (8 : Int) + 1 = 9 := rfl
    unfold xai2Client.streamLoop
    rw [h89, hstep]
    refine ⟨rfl, ?_, cleanDeltas lower (chunkDeltas (env 9).chunks), ?_⟩
    · simp [attemptsStarted, attemptsStarted_append, attemptsStarted_deltaSends]
    · simp [Run.events, sentEvents, sentEvents_append, sentEvents_deltaSends]
  | succ j ih =>
    obtain ⟨fuel', rfl⟩ : ∃ f, fuel = f + 1 := ⟨fuel - 1, by omega⟩
    have hcast : ((j + 1 : Nat) : Int) = (j : Int) + 1 := by push_cast; rfl
    rw [hcast] at hj
    obtain ⟨hctx, e, after, he, hre⟩ := hretried (counter + 1) (by omega) (by omega)
    have hstep := attemptStep_retry x lower (env (counter + 1)) (counter + 1) e after he hre hctx
    obtain ⟨hexit, hcount, texts, hev⟩ := ih (counter + 1) fuel' (by omega) (by omega) (by omega)
    unfold xai2Client.streamLoop
    rw [hstep]
    simp only []
    refine ⟨by rw [exit_after]; exact hexit, ?_,
      cleanDeltas lower (chunkDeltas (env (counter + 1)).chunks) ++ texts, ?_⟩
    · rw [attemptsStarted_after, hcount]
      simp [attemptsStarted, attemptsStarted_append, attemptsStarted_deltaSends]
      omega
    · rw [events_after, hev]
      simp [sentEvents, sentEvents_append, sentEvents_deltaSends]

/-- C14.  The retry loop is bounded.  Whatever the attempts do and however
many iterations the loop is allowed, it starts at most
`xai2MaxRetries + 1 = 9` network attempts; with nine iterations it always
ends, and more iterations give the same run.  If the attempts 1 to 8 all end
with an error that `shouldRetry` decides to retry and attempt 9 ends with an
error too, then exactly nine attempts are started, none after attempt 9, and
the call returns after a single terminal event, the `Error` carrying the
maximum-retries error. -/
theorem retry_loop_bounded (x : xai2Client) (lower : Char → Char) (env : Int → Attempt) :
    (∀ fuel, attemptsStarted (xai2Client.streamLoop x lower env fuel 0).trace ≤ 9) ∧
    (xai2Client.streamWithParams x lower env).exit ≠ .outOfFuel ∧
    (∀ fuel, 9 ≤ fuel →
      xai2Client.streamLoop x lower env fuel 0 = xai2Client.streamWithParams x lower env) ∧
    ((∀ n : Int, 1 ≤ n → n ≤ 8 → (env n).ctxDone = none ∧ ∃ e after,
        xai2Client.attemptError lower (env n) = some e ∧
        xai2Client.shouldRetry n (some e) = some (true, after, none)) →
      (∃ e, xai2Client.attemptError lower (env 9) = some e) →
      (xai2Client.streamWithParams x lower env).exit = .returned ∧
      attemptsStarted (xai2Client.streamWithParams x lower env).trace = 9 ∧
      ∃ texts : List String,
        (xai2Client.streamWithParams x lower env).events =
          texts.map ProviderEvent.delta ++ [.failed (some xai2MaxRetriesError)]) := by
  refine ⟨?_, streamWithParams_ends x lower env, ?_, ?_⟩
  · intro fuel
    have h := streamLoop_attempts_le x lower env fuel 0 (by decide)
    omega
  · intro fuel hfuel
    obtain ⟨extra, rfl⟩ : ∃ k, fuel = 9 + k := ⟨fuel - 9, by omega⟩
    exact streamLoop_more_fuel x lower env 9 extra 0 (streamWithParams_ends x lower env)
  · intro hretried hlast
    exact streamLoop_all_fail x lower env hretried hlast 8 0 9 (by decide) (by decide)
      (by decide)

/-- C14 at the stream whose every attempt is the masked "I think", " you have",
" hit a rate limit, try again": nine attempts are started and the call ends
with the maximum-retries error. -/
theorem retry_loop_bounded_masked :
    attemptsStarted
      (xai2Client.streamWithParams exampleClient Char.toLower fun _ => maskedAttempt).trace = 9 ∧
    (xai2Client.streamWithParams exampleClient Char.toLower fun _ => maskedAttempt).exit =
      .returned := by
  have h := (retry_loop_bounded exampleClient Char.toLower fun _ => maskedAttempt).2.2.2
    (by
      intro n h1 h8
      refine ⟨rfl, .xai2ContentError 200 " hit a rate limit, try again",
        2400 * 2 ^ (n - 1).toNat, by decide, ?_⟩
      exact shouldRetry_content_error n _ h1 h8 rfl)
    ⟨.xai2ContentError 200 " hit a rate limit, try again", by decide⟩
  exact ⟨h.2.1, h.1⟩

/-! ## The retry loop in general -/

theorem after_nil (r : Run) : r.after [] = r := by
  cases r
  rfl

theorem after_after (xs ys : List Effect) (r : Run) :
    (r.after ys).after xs = r.after (xs ++ ys) := by
  simp [Run.after]

/-- The retry loop of `xai2Client` is the general loop over its body. -/
theorem xai2_streamLoop_eq (x : xai2Client) (lower : Char → Char) (env : Int → Attempt)
    (fuel : Nat) (counter : Int) :
    xai2Client.streamLoop x lower env fuel counter =
      retryLoop (fun n => xai2Client.attemptStep x lower (env n) n) fuel counter := by
  induction fuel generalizing counter with
  | zero => rfl
  | succ fuel ih =>
    unfold xai2Client.streamLoop retryLoop
    cases xai2Client.attemptStep x lower (env (counter + 1)) (counter + 1) with
    | done run => rfl
    | again effects =>
      show Run.after effects _ = Run.after effects _
      rw [ih]

/-- When the iterations `counter + 1`, ..., `m - 1` all go round again and
iteration `m` ends the goroutine with the run `r`, the loop started at
`counter` is `r` preceded by the effects of those iterations: one attempt
each, and only content deltas for the caller. -/
theorem retryLoop_retried_then (step : Int → StepResult) (m : Int) (r : Run)
    (hsteps : ∀ n effects, step n = .again effects →
      attemptsStarted effects = 1 ∧
      ∃ texts : List String, sentEvents effects = texts.map ProviderEvent.delta)
    (hretried : ∀ n : Int, 1 ≤ n → n < m → ∃ effects, step n = .again effects)
    (hdone : step m = .done r)
    (j : Nat) (counter : Int) (fuel : Nat)
    (hj : counter + j + 1 = m) (hcounter : 0 ≤ counter) (hfuel : j + 1 ≤ fuel) :
    ∃ before : List Effect,
      retryLoop step fuel counter = r.after before ∧
      attemptsStarted before = j ∧
      ∃ texts : List String, sentEvents before = texts.map ProviderEvent.delta := by
  induction j generalizing counter fuel with
  | zero =>
    obtain ⟨fuel', rfl⟩ : ∃ f, fuel = f + 1 := ⟨fuel - 1, by omega⟩
    have hm : counter + 1 = m := by simpa using hj
    unfold retryLoop
    rw [hm, hdone]
    exact ⟨[], (after_nil r).symm, rfl, [], rfl⟩
  | succ j ih =>
    obtain ⟨fuel', rfl⟩ : ∃ f, fuel = f + 1 := ⟨fuel - 1, by omega⟩
    have hcast : ((j + 1 : Nat) : Int) = (j : Int) + 1 := by push_cast; rfl
    rw [hcast] at hj
    obtain ⟨effects, heff⟩ := hretried (counter + 1) (by omega) (by omega)
    obtain ⟨hone, texts, htexts⟩ := hsteps (counter + 1) effects heff
    obtain ⟨before, hrun, hcount, texts', htexts'⟩ :=
      ih (counter + 1) fuel' (by omega) (by omega) (by omega)
    unfold retryLoop
    rw [heff]
    simp only []
    refine ⟨effects ++ before, ?_, ?_, texts ++ texts', ?_⟩
    · rw [hrun, after_after]
    · rw [attemptsStarted_append, hone, hcount]
      omega
    · rw [sentEvents_append, htexts, htexts', List.map_append]

/-! ## C15: cancellation during the backoff wait -/

/-- An attempt of `xai2Client` that ends with a retryable error and whose
backoff wait is cut by the cancellation ends the goroutine. -/
theorem xai2_attemptStep_cancelled (x : xai2Client) (lower : Char → Char) (a : Attempt) (n : Int)
    (e : GoError) (after : Int) (ctxErr : GoError)
    (herr : xai2Client.attemptError lower a = some e)
    (hretry : xai2Client.shouldRetry n (some e) = some (true, after, none))
    (hctx : a.ctxDone = some ctxErr) :
    xai2Client.attemptStep x lower a n =
      .done ⟨.newStreaming n :: deltaSends (cleanDeltas lower (chunkDeltas a.chunks)) ++
        [.requestClear, .backoffWait after, .send (.failed (some ctxErr)), .closeChan],
        .returned⟩ := by
  rw [attemptStep_eq, herr]
  simp [xai2Client.handleStreamError, hretry, hctx]

theorem xai_processChoices_eq (choices : List ChunkChoice) (cur : String) :
    xaiClient.processChoices choices cur =
      { sent := deltaSends (choiceDeltas choices),
        currentContent := cur ++ concatStrings (choiceDeltas choices),
        streamErr := none } := by
  induction choices generalizing cur with
  | nil => simp [xaiClient.processChoices, choiceDeltas, deltaSends, concatStrings]
  | cons c cs ih =>
    by_cases hne : c.deltaContent = ""
    · simp [xaiClient.processChoices, choiceDeltas, hne, ih]
    · simp [xaiClient.processChoices, choiceDeltas, hne, ih, deltaSends, concatStrings,
        String.append_assoc]

/-- The chunk loop of `xaiClient` sends every non-empty delta and accumulates
their concatenation. -/
theorem xai_processChunks_eq (chunks : List Chunk) (cur : String) :
    xaiClient.processChunks chunks cur =
      { sent := deltaSends (chunkDeltas chunks),
        currentContent := cur ++ concatStrings (chunkDeltas chunks),
        streamErr := none } := by
  induction chunks generalizing cur with
  | nil => simp [xaiClient.processChunks, chunkDeltas, deltaSends, concatStrings]
  | cons c cs ih =>
    simp [xaiClient.processChunks, chunkDeltas, xai_processChoices_eq, ih, deltaSends_append,
      concatStrings_append, String.append_assoc]

/-- One iteration of `xaiClient`, by what the stream ends with. -/
theorem xai_attemptStep_eq (x : xaiClient) (a : Attempt) (n : Int) :
    xaiClient.attemptStep x a n =
      match a.err with
      | none =>
        .done ((xaiClient.finishAttempt x a.acc (concatStrings (chunkDeltas a.chunks))).after
          (.newStreaming n :: deltaSends (chunkDeltas a.chunks)))
      | some e =>
        if errorsIsEOF e then
          .done ((xaiClient.finishAttempt x a.acc (concatStrings (chunkDeltas a.chunks))).after
            (.newStreaming n :: deltaSends (chunkDeltas a.chunks)))
        else
          xaiClient.handleStreamError x a n
            (.newStreaming n :: deltaSends (chunkDeltas a.chunks)) e := by
  unfold xaiClient.attemptStep
  rw [xai_processChunks_eq, String.empty_append]

/-- An iteration of `xaiClient` that goes round again has started one attempt
and sent only content deltas. -/
theorem xai_attemptStep_again (x : xaiClient) (a : Attempt) (n : Int) (effects : List Effect)
    (h : xaiClient.attemptStep x a n = .again effects) :
    attemptsStarted effects = 1 ∧
    ∃ texts : List String, sentEvents effects = texts.map ProviderEvent.delta := by
  rw [xai_attemptStep_eq] at h
  cases herr : a.err with
  | none =>
    rw [herr] at h
    cases h
  | some e =>
    rw [herr] at h
    by_cases heof : errorsIsEOF e = true
    · simp only [heof, if_true] at h
      cases h
    · simp only [heof, if_false, Bool.false_eq_true] at h
      unfold xaiClient.handleStreamError at h
      split at h
      · cases h
      · split at h
        · cases h
        · split at h
          · split at h
            · cases h
            · cases h
              refine ⟨?_, chunkDeltas a.chunks, ?_⟩
              · simp [attemptsStarted, attemptsStarted_append, attemptsStarted_deltaSends]
              · simp [sentEvents, sentEvents_append, sentEvents_deltaSends]
          · cases h

/-- An attempt of `xaiClient` that ends with a retryable error and whose
backoff wait is cut by the cancellation ends the goroutine. -/
theorem xai_attemptStep_cancelled (x : xaiClient) (a : Attempt) (n : Int)
    (e : GoError) (after : Int) (ctxErr : GoError)
    (herr : a.err = some e) (heof : errorsIsEOF e = false)
    (hretry : xaiClient.shouldRetry x.base.maxRetries x.base.shouldRetry n (some e) =
      some (true, after, none))
    (hctx : a.ctxDone = some ctxErr) :
    xaiClient.attemptStep x a n =
      .done ⟨.newStreaming n :: deltaSends (chunkDeltas a.chunks) ++
        [.requestClear, .backoffWait after, .send (.failed (some ctxErr)), .closeChan],
        .returned⟩ := by
  rw [xai_attemptStep_eq, herr]
  simp [heof, xaiClient.handleStreamError, hretry, hctx]

/-- An attempt of `xaiClient` that ends with a retryable error, without
cancellation during the wait, makes the loop go round again. -/
theorem xai_attemptStep_retry (x : xaiClient) (a : Attempt) (n : Int)
    (e : GoError) (after : Int)
    (herr : a.err = some e) (heof : errorsIsEOF e = false)
    (hretry : xaiClient.shouldRetry x.base.maxRetries x.base.shouldRetry n (some e) =
      some (true, after, none))
    (hctx : a.ctxDone = none) :
    xaiClient.attemptStep x a n =
      .again (.newStreaming n :: deltaSends (chunkDeltas a.chunks) ++
        [.requestClear, .backoffWait after, .requestSetCurrent x.requestInfo]) := by
  rw [xai_attemptStep_eq, herr]
  simp [heof, xaiClient.handleStreamError, hretry, hctx]

/-- C15.  When the cancellation is observed during the backoff wait after
attempt `n` (the attempts before it having been retried), the call sends its
single terminal event, the `Error` carrying `ctx.Err()`, and returns: the
trace ends with `request.Clear`, the wait, that event and the close, and
exactly `n` attempts have been started, so attempt `n + 1` is not.  This holds
for `xai2Client.streamWithParams` and for `xaiClient.streamWithParams`. -/
theorem cancellation_during_backoff (x2 : xai2Client) (lower : Char → Char) (x : xaiClient)
    (env : Int → Attempt) (n : Int) (e : GoError) (after : Int) (ctxErr : GoError) (fuel : Nat)
    (hn : 1 ≤ n)
    (hctx : (env n).ctxDone = some ctxErr) :
    ((∀ k : Int, 1 ≤ k → k < n → (env k).ctxDone = none ∧ ∃ e' after',
        xai2Client.attemptError lower (env k) = some e' ∧
        xai2Client.shouldRetry k (some e') = some (true, after', none)) →
      xai2Client.attemptError lower (env n) = some e →
      xai2Client.shouldRetry n (some e) = some (true, after, none) →
      (xai2Client.streamWithParams x2 lower env).exit = .returned ∧
      attemptsStarted (xai2Client.streamWithParams x2 lower env).trace = n.toNat ∧
      (∃ texts : List String, (xai2Client.streamWithParams x2 lower env).events =
        texts.map ProviderEvent.delta ++ [.failed (some ctxErr)]) ∧
      ∃ before, (xai2Client.streamWithParams x2 lower env).trace =
        before ++ [.requestClear, .backoffWait after, .send (.failed (some ctxErr)),
          .closeChan]) ∧
    ((∀ k : Int, 1 ≤ k → k < n → (env k).ctxDone = none ∧ ∃ e' after',
        (env k).err = some e' ∧ errorsIsEOF e' = false ∧
        xaiClient.shouldRetry x.base.maxRetries x.base.shouldRetry k (some e') =
          some (true, after', none)) →
      (env n).err = some e → errorsIsEOF e = false →
      xaiClient.shouldRetry x.base.maxRetries x.base.shouldRetry n (some e) =
        some (true, after, none) →
      n.toNat ≤ fuel →
      (xaiClient.streamWithParams x env fuel).exit = .returned ∧
      attemptsStarted (xaiClient.streamWithParams x env fuel).trace = n.toNat ∧
      (∃ texts : List String, (xaiClient.streamWithParams x env fuel).events =
        texts.map ProviderEvent.delta ++ [.failed (some ctxErr)]) ∧
      ∃ before, (xaiClient.streamWithParams x env fuel).trace =
        before ++ [.requestClear, .backoffWait after, .send (.failed (some ctxErr)),
          .closeChan]) := by
  have hcast : (((n - 1).toNat : Nat) : Int) = n - 1 := Int.toNat_of_nonneg (by omega)
  have hnat : (n - 1).toNat + 1 = n.toNat := by omega
  constructor
  · intro hretried herr hretry
    have hn8 : n ≤ xai2MaxRetries := by
      by_contra hgt
      rw [shouldRetry_exhausted n (some e) (not_le.mp hgt)] at hretry
      cases hretry
    have hn8' : n ≤ 8 := hn8
    have hdone := xai2_attemptStep_cancelled x2 lower (env n) n e after ctxErr herr hretry hctx
    obtain ⟨before, hrun, hcount, texts, htexts⟩ :=
      retryLoop_retried_then (fun k => xai2Client.attemptStep x2 lower (env k) k) n _
        (fun k effects h =>
          ⟨(attemptStep_attempts x2 lower (env k) k).1 effects h, _,
            (attemptStep_events x2 lower (env k) k).1 effects h⟩)
        (fun k h1 hk => by
          obtain ⟨hc, e', after', he', hre'⟩ := hretried k h1 hk
          exact ⟨_, attemptStep_retry x2 lower (env k) k e' after' he' hre' hc⟩)
        hdone (n - 1).toNat 0 9 (by omega) (by decide) (by omega)
    have hrun' := (xai2_streamLoop_eq x2 lower env 9 0).trans hrun
    unfold xai2Client.streamWithParams
    rw [hrun']
    refine ⟨rfl, ?_, ⟨texts ++ cleanDeltas lower (chunkDeltas (env n).chunks), ?_⟩,
      ⟨before ++ .newStreaming n :: deltaSends (cleanDeltas lower (chunkDeltas (env n).chunks)),
        ?_⟩⟩
    · rw [attemptsStarted_after, hcount]
      simp [attemptsStarted, attemptsStarted_append, attemptsStarted_deltaSends]
      omega
    · rw [events_after, htexts]
      simp [Run.events, sentEvents, sentEvents_append, sentEvents_deltaSends]
    · simp [Run.after]
  · intro hretried herr heof hretry hfuel
    have hdone := xai_attemptStep_cancelled x (env n) n e after ctxErr herr heof hretry hctx
    obtain ⟨before, hrun, hcount, texts, htexts⟩ :=
      retryLoop_retried_then (fun k => xaiClient.attemptStep x (env k) k) n _
        (fun k effects h => xai_attemptStep_again x (env k) k effects h)
        (fun k h1 hk => by
          obtain ⟨hc, e', after', he', heof', hre'⟩ := hretried k h1 hk
          exact ⟨_, xai_attemptStep_retry x (env k) k e' after' he' heof' hre' hc⟩)
        hdone (n - 1).toNat 0 fuel (by omega) (by decide) (by omega)
    unfold xaiClient.streamWithParams xaiClient.streamLoop
    rw [hrun]
    refine ⟨rfl, ?_, ⟨texts ++ chunkDeltas (env n).chunks, ?_⟩,
      ⟨before ++ .newStreaming n :: deltaSends (chunkDeltas (env n).chunks), ?_⟩⟩
    · rw [attemptsStarted_after, hcount]
      simp [attemptsStarted, attemptsStarted_append, attemptsStarted_deltaSends]
      omega
    · rw [events_after, htexts]
      simp [Run.events, sentEvents, sentEvents_append, sentEvents_deltaSends]
    · simp [Run.after]

/-- C15 at a first attempt cut by an HTTP 500 whose backoff wait is cancelled:
both clients send "Hello" and the `Error` carrying `context.Canceled`, and
start no second attempt. -/
theorem cancellation_during_backoff_first_attempt :
    attemptsStarted
      (xai2Client.streamWithParams exampleClient Char.toLower fun _ => cancelledAttempt).trace =
      1 ∧
    attemptsStarted
      (xaiClient.streamWithParams exampleXaiClient (fun _ => cancelledAttempt) 5).trace = 1 :=
  have h := cancellation_during_backoff exampleClient Char.toLower exampleXaiClient
    (fun _ => cancelledAttempt) 1 (.apiError 500 "500 Internal Server Error" []) 2000
    .contextCanceled 5 (by decide) rfl
  ⟨(h.1 (by intro k h1 hk; omega) (by decide) (by decide)).2.1,
   (h.2 (by intro k h1 hk; omega) rfl rfl (by decide) (by decide)).2.1⟩

/-! ## C16: tool calls force the finish reason -/

theorem xai2_toolCalls_eq (acc : ChatCompletion) (first : CompletionChoice)
    (rest : List CompletionChoice) (hacc : acc.choices = first :: rest) :
    xai2Client.toolCalls acc = first.messageToolCalls.map toolCallOf := by
  unfold xai2Client.toolCalls
  rw [hacc]
  cases h : first.messageToolCalls with
  | nil => simp [h]
  | cons tc tcs =>
    simp only [h, List.length_cons, Nat.add_one_ne_zero, if_false, List.map_cons]
    rfl

/-- C16.  For an attempt that completes successfully and whose accumulated
first choice carries at least one tool call, the `Complete` event has finish
reason tool-use whatever finish-reason string the backend reported, and its
`ToolCalls` are the accumulated tool calls converted one by one, in order.
For `xaiClient` the list is what `openaiClient.toolCalls` returns, which is
taken to be that conversion. -/
theorem tool_calls_force_tool_use (x2 : xai2Client) (lower : Char → Char) (x : xaiClient)
    (a : Attempt) (n : Int) (first : CompletionChoice) (rest : List CompletionChoice)
    (hacc : a.acc.choices = first :: rest)
    (htools : first.messageToolCalls ≠ []) :
    (xai2Client.attemptError lower a = none →
      xai2Client.isErrorContent lower (concatStrings (chunkDeltas a.chunks)) = false →
      xai2Client.attemptStep x2 lower a n =
        .done ⟨.newStreaming n :: deltaSends (chunkDeltas a.chunks) ++
          [.send (.completed
            { content := concatStrings (chunkDeltas a.chunks),
              toolCalls := first.messageToolCalls.map toolCallOf,
              usage := xai2Client.usage a.acc,
              finishReason := .toolUse }),
           .requestClear, .closeChan], .returned⟩) ∧
    ((a.err = none ∨ ∃ e, a.err = some e ∧ errorsIsEOF e = true) →
      x.base.toolCalls a.acc = first.messageToolCalls.map toolCallOf →
      xaiClient.attemptStep x a n =
        .done ⟨.newStreaming n :: deltaSends (chunkDeltas a.chunks) ++
          [.send (.completed
            { content := concatStrings (chunkDeltas a.chunks),
              toolCalls := first.messageToolCalls.map toolCallOf,
              usage := x.base.usage a.acc,
              finishReason := .toolUse }),
           .requestClear, .closeChan], .returned⟩) ∧
    (first.messageToolCalls.map toolCallOf).length = first.messageToolCalls.length := by
  have hlen : 0 < first.messageToolCalls.length := List.length_pos.mpr htools
  have hlen' : 0 < (first.messageToolCalls.map toolCallOf).length := by
    rw [List.length_map]
    exact hlen
  refine ⟨?_, ?_, List.length_map _ _⟩
  · intro herr hwhole
    rw [attemptStep_eq, herr]
    simp [xai2Client.finishAttempt, hwhole, hacc, xai2_toolCalls_eq a.acc first rest hacc, hlen,
      Run.after]
  · intro herr hhelper
    rw [xai_attemptStep_eq]
    rcases herr with herr | ⟨e, herr, heof⟩
    · rw [herr]
      simp [xaiClient.finishAttempt, hacc, hhelper, hlen, Run.after]
    · rw [herr]
      simp [heof, xaiClient.finishAttempt, hacc, hhelper, hlen, Run.after]

/-- C16 at a completion with finish reason "stop" and two tool calls: both
clients send a `Complete` with finish reason tool-use and the two tool calls in
order. -/
theorem tool_calls_force_tool_use_stop :
    xai2Client.attemptStep exampleClient Char.toLower toolAttempt 1 =
      .done ⟨[.newStreaming 1,
          .send (.completed
            { content := "",
              toolCalls :=
                [{ id := "call_1", name := "ls", input := "\x7b\x7d", type := "function",
                   finished := true },
                 { id := "call_2", name := "view", input := "\x7b\x22path\x22:\x22a.go\x22\x7d",
                   type := "function", finished := true }],
              usage := { inputTokens := 10, outputTokens := 4,
                         cacheCreationTokens := 0, cacheReadTokens := 0 },
              finishReason := .toolUse }),
           .requestClear, .closeChan], .returned⟩ ∧
    xaiClient.attemptStep exampleXaiClient toolAttempt 1 =
      .done ⟨[.newStreaming 1,
          .send (.completed
            { content := "",
              toolCalls :=
                [{ id := "call_1", name := "ls", input := "\x7b\x7d", type := "function",
                   finished := true },
                 { id := "call_2", name := "view", input := "\x7b\x22path\x22:\x22a.go\x22\x7d",
                   type := "function", finished := true }],
              usage := { inputTokens := 10, outputTokens := 4,
                         cacheCreationTokens := 0, cacheReadTokens := 0 },
              finishReason := .toolUse }),
           .requestClear, .closeChan], .returned⟩ :=
  have h := tool_calls_force_tool_use exampleClient Char.toLower exampleXaiClient toolAttempt 1
    { finishReason := "stop", messageContent := "",
      messageToolCalls :=
        [{ id := "call_1", functionName := "ls", functionArguments := "\x7b\x7d" },
         { id := "call_2", functionName := "view", functionArguments := "\x7b\x22path\x22:\x22a.go\x22\x7d" }] }
    [] rfl (by decide)
  ⟨h.1 (by decide) (by decide), h.2.1 (Or.inl rfl) (by decide)⟩

/-! ## C17: the request tracker -/

/-- Whatever error the backend call returns, `SendMessages` returns it after
one network request. -/
theorem sendMessages_error (x : xai2Client) (err : GoError) :
    xai2Client.SendMessages x (.error err) =
      { trace := [.requestSetCurrent x.requestInfo, .newCompletion, .requestClear],
        response := none, err := some err, exit := .returned } := rfl

/-- C18 fails on an HTTP 429 without the quota phrase.  `shouldRetry` decides a
retry after 2000 ms for that error on attempt 1, yet `SendMessages` makes its
single network request, clears the tracker and returns that very error. -/
theorem send_messages_does_not_retry :
    xai2Client.SendMessages exampleClient (.error rateLimitError) =
      { trace := [.requestSetCurrent exampleClient.requestInfo, .newCompletion, .requestClear],
        response := none, err := some rateLimitError, exit := .returned } ∧
    xai2Client.shouldRetry 1 (some rateLimitError) = some (true, 2000, none) := by
  decide

/-! ## C19: all-or-nothing release in `wrapStreamEvents` -/

/-- The wrapper over content deltas followed by a `Complete`, from a state in
which nothing is buffered unless `isBuffering` is set. -/
theorem wrapLoop_deltas_complete (lower : Char → Char) (deltas : List ProviderEvent)
    (event : ProviderEvent) (s : WrapState)
    (hdeltas : ∀ d ∈ deltas, d.type = .contentDelta)
    (hcomplete : event.type = .complete)
    (hstate : s.isBuffering = false → s.bufferedEvents = []) :
    xaiClient.wrapLoop lower s (deltas ++ [event]) =
      if xaiClient.isErrorContent lower
          (match event.response with
            | some response => response.content
            | none => s.accumulatedContent ++ concatStrings (deltas.map fun d => d.content))
      then [.failed (some (.xaiContentError 429
          (match event.response with
            | some response => response.content
            | none => s.accumulatedContent ++ concatStrings (deltas.map fun d => d.content))))]
      else s.bufferedEvents ++ deltas ++ [event] := by
  induction deltas generalizing s with
  | nil =>
    simp only [List.nil_append, xaiClient.wrapLoop, xaiClient.wrapEvent, hcomplete, List.map_nil,
      concatStrings, String.append_empty, List.append_nil]
    by_cases hflag : xaiClient.isErrorContent lower
        (match event.response with
          | some response => response.content
          | none => s.accumulatedContent) = true
    · simp [hflag, WrapState.initial]
    · cases hb : s.isBuffering with
      | true => simp [hflag, WrapState.initial]
      | false => simp [hflag, WrapState.initial, hstate hb]
  | cons d ds ih =>
    have hd : d.type = .contentDelta := hdeltas d (List.mem_cons_self d ds)
    have hds : ∀ d' ∈ ds, d'.type = .contentDelta := fun d' h =>
      hdeltas d' (List.mem_cons_of_mem d h)
    have hstep : xaiClient.wrapEvent lower s d =
        ({ accumulatedContent := s.accumulatedContent ++ d.content,
           bufferedEvents := s.bufferedEvents ++ [d],
           isBuffering := true }, []) := by
      simp [xaiClient.wrapEvent, hd]
    have hcons : (d :: ds) ++ [event] = d :: (ds ++ [event]) := rfl
    rw [hcons, xaiClient.wrapLoop, hstep]
    simp only [List.nil_append]
    rw [ih _ hds (by intro h; cases h)]
    simp [concatStrings, String.append_assoc]

/-- C19 fails at the deltas "Hello", " world" followed by a `Complete` whose
response says "Rate limit".  The full text "Hello world" is not error content,
yet the deltas and the `Complete` are withheld; and the one `Error` sent in
their place carries "Rate limit", the content of the response, not the full
text. -/
theorem complete_response_decides_release :
    xaiClient.wrapStreamEvents Char.toLower overriddenBaseEvents =
      [.failed (some (.xaiContentError 429 "Rate limit"))] ∧
    concatStrings (deltaTexts overriddenBaseEvents) = "Hello world" ∧
    xaiClient.isErrorContent Char.toLower "Hello world" = false ∧
    xaiClient.wrapStreamEvents Char.toLower overriddenBaseEvents ≠ overriddenBaseEvents ∧
    xaiClient.wrapStreamEvents Char.toLower overriddenBaseEvents ≠
      [.failed (some (.xaiContentError 429 "Hello world"))] := by
  decide

/-- C19, amended.  For base events that are content deltas `d1..dn` followed
by one `Complete`, `wrapStreamEvents` sends either exactly `d1..dn` in their
order, once each, and then that `Complete` (when the completed content is not
error content), or exactly one `Error` carrying the completed content and no
delta at all (when it is).  The completed content is the content of the
response of the `Complete` when it has one, and the full text
`d1 ++ ... ++ dn` when it has none; the two are the same text, and the `Error`
carries the full text, when the response carries the accumulated text. -/
theorem wrap_all_or_nothing (lower : Char → Char) (deltas : List ProviderEvent)
    (event : ProviderEvent)
    (hdeltas : ∀ d ∈ deltas, d.type = .contentDelta)
    (hcomplete : event.type = .complete) :
    (xaiClient.isErrorContent lower (completedContent deltas event) = false →
      xaiClient.wrapStreamEvents lower (deltas ++ [event]) = deltas ++ [event]) ∧
    (xaiClient.isErrorContent lower (completedContent deltas event) = true →
      xaiClient.wrapStreamEvents lower (deltas ++ [event]) =
        [.failed (some (.xaiContentError 429 (completedContent deltas event)))]) ∧
    ((∀ response, event.response = some response →
        response.content = concatStrings (deltas.map fun d => d.content)) →
      completedContent deltas event = concatStrings (deltas.map fun d => d.content)) := by
  have h := wrapLoop_deltas_complete lower deltas event WrapState.initial hdeltas hcomplete
    (fun _ => rfl)
  have hfull : (match event.response with
      | some response => response.content
      | none => WrapState.initial.accumulatedContent ++
          concatStrings (deltas.map fun d => d.content)) = completedContent deltas event := by
    unfold completedContent
    cases event.response with
    | some r => rfl
    | none => exact String.empty_append _
  rw [hfull] at h
  unfold xaiClient.wrapStreamEvents
  rw [h]
  refine ⟨?_, ?_, ?_⟩
  · intro hclean
    simp [hclean, WrapState.initial]
  · intro hflag
    simp [hflag]
  · intro hsame
    unfold completedContent
    cases hresp : event.response with
    | some r => exact hsame r hresp
    | none => rfl

/-- C19 at "Hello", " world", `Complete("Hello world")`: the three events are
passed on as they are. -/
theorem wrap_all_or_nothing_hello :
    xaiClient.wrapStreamEvents Char.toLower helloBaseEvents = helloBaseEvents :=
  (wrap_all_or_nothing Char.toLower [.delta "Hello", .delta " world"]
    (.completed { content := "Hello world", toolCalls := [],
                  usage := { inputTokens := 10, outputTokens := 2,
                             cacheCreationTokens := 0, cacheReadTokens := 0 },
                  finishReason := .endTurn })
    (by decide) rfl).1 (by decide)

/-! ## C20: a denied permission -/

/-- C20.  With a session ID and a message ID, when the permission request is
denied, `Run` returns the text error response "permission denied" and a nil
error, and its only effect is the permission request: no MCP client is
created, nothing is initialised and no tool is called. -/
theorem denied_permission_stops_run (b : mcpTool) (world : McpWorld) (input : String)
    (hsession : world.sessionID ≠ "")
    (hmessage : world.messageID ≠ "")
    (hdenied : world.granted = false) :
    mcpTool.Run b world input =
      { trace := [.permissionRequest world.sessionID world.workingDirectory b.infoName
          "execute" ("execute " ++ b.infoName ++ " with the following parameters: " ++ input)
          input],
        response := .textError "permission denied",
        err := none } := by
  simp [mcpTool.Run, hsession, hmessage, hdenied]

/-- C20 at the tool "files_read" with the empty JSON object as input. -/
theorem denied_permission_stops_run_example :
    (mcpTool.Run exampleTool deniedWorld "\x7b\x7d").response = .textError "permission denied" ∧
    (mcpTool.Run exampleTool deniedWorld "\x7b\x7d").err = none ∧
    (mcpTool.Run exampleTool deniedWorld "\x7b\x7d").trace.length = 1 :=
  have h := denied_permission_stops_run exampleTool deniedWorld "\x7b\x7d" (by decide) (by decide) rfl
  ⟨by rw [h], by rw [h], by rw [h]; rfl⟩

/-! ## C28: the classifier under extension of the text -/

/-- The classifier by what it looks for, for use in further proofs. -/
theorem isErrorContent_iff (lower : Char → Char) (T : String) :
    xai2Client.isErrorContent lower T = true ↔
      ∃ p ∈ xai2ErrorPatterns, IsSubstring p (stringsToLower lower T) := by
  by_cases hT : T = ""
  · subst hT
    simp only [xai2Client.isErrorContent, if_true, stringsToLower_empty]
    constructor
    · intro h
      cases h
    · rintro ⟨p, hp, hs⟩
      exact absurd hs (not_isSubstring_empty p hp)
  · simp only [xai2Client.isErrorContent, hT, if_false]
    exact matchesAnyPattern_iff _ _

theorem stringsToLower_append (lower : Char → Char) (s t : String) :
    stringsToLower lower (s ++ t) = stringsToLower lower s ++ stringsToLower lower t := by
  apply String.ext
  simp [stringsToLower, String.data_append]

theorem isSubstring_extend (p s before after : String) (h : IsSubstring p s) :
    IsSubstring p (before ++ s ++ after) := by
  obtain ⟨a, b, hab⟩ := h
  refine ⟨before.data ++ a, b ++ after.data, ?_⟩
  simp [String.data_append, hab]

/-- The classifier is monotone under extension of the text. -/
theorem isErrorContent_extend (lower : Char → Char) (A T B : String)
    (h : xai2Client.isErrorContent lower T = true) :
    xai2Client.isErrorContent lower (A ++ T ++ B) = true := by
  obtain ⟨p, hp, hs⟩ := (isErrorContent_iff lower T).mp h
  refine (isErrorContent_iff lower (A ++ T ++ B)).mpr ⟨p, hp, ?_⟩
  rw [stringsToLower_append, stringsToLower_append]
  exact isSubstring_extend p _ _ _ hs

theorem concatStrings_mem (ds : List String) (d : String) (hd : d ∈ ds) :
    ∃ A B, concatStrings ds = A ++ d ++ B := by
  induction ds with
  | nil => cases hd
  | cons x xs ih =>
    rcases List.mem_cons.mp hd with h | h
    · subst h
      exact ⟨"", concatStrings xs, by simp [concatStrings]⟩
    · obtain ⟨A, B, hAB⟩ := ih h
      exact ⟨x ++ A, B, by simp [concatStrings, hAB, String.append_assoc]⟩

theorem firstFlagged_mem (lower : Char → Char) (ds : List String) (d : String)
    (h : firstFlagged lower ds = some d) :
    d ∈ ds ∧ xai2Client.isErrorContent lower d = true := by
  rcases cleanDeltas_split lower ds with ⟨hnone, _⟩ | ⟨d', tail, hsome, hflag, hsplit⟩
  · rw [hnone] at h
    cases h
  · rw [hsome] at h
    cases h
    refine ⟨?_, hflag⟩
    rw [hsplit]
    simp

/-- C28.  `isErrorContent` is monotone under extension of the text: if it is
true of `T` it is true of `A ++ T ++ B`, for `xai2Client` and for `xaiClient`.
Consequently, when a delta of an attempt is flagged on its own, the
concatenation of the attempt's deltas, which contains it, is flagged too. -/
theorem classifier_monotone (lower : Char → Char) (A T B : String)
    (h : xai2Client.isErrorContent lower T = true) :
    xai2Client.isErrorContent lower (A ++ T ++ B) = true ∧
    xaiClient.isErrorContent lower (A ++ T ++ B) = true ∧
    (∀ ds : List String, T ∈ ds → xai2Client.isErrorContent lower (concatStrings ds) = true) ∧
    (∀ chunks : List Chunk, firstFlagged lower (chunkDeltas chunks) = some T →
      xai2Client.isErrorContent lower (concatStrings (chunkDeltas chunks)) = true) := by
  have hext := isErrorContent_extend lower A T B h
  have hmem : ∀ ds : List String, T ∈ ds →
      xai2Client.isErrorContent lower (concatStrings ds) = true := by
    intro ds hd
    obtain ⟨A', B', hAB⟩ := concatStrings_mem ds T hd
    rw [hAB]
    exact isErrorContent_extend lower A' T B' h
  refine ⟨hext, hext, hmem, ?_⟩
  intro chunks hff
  exact hmem _ (firstFlagged_mem lower _ T hff).1

/-- C28 at the flagged text "rate limit" inside "You hit a rate limit today". -/
theorem classifier_monotone_example :
    xai2Client.isErrorContent Char.toLower ("You hit a " ++ "rate limit" ++ " today") = true :=
  (classifier_monotone Char.toLower "You hit a " "rate limit" " today" (by decide)).1

/-! ## C27: the finish-reason mapping -/

/-- C27.  `xai2Client.finishReason` maps "stop" to end-turn, "length" to
max-tokens, "tool_calls" and "function_call" to tool-use, "content_filter" to
the content-filtered reason (`message.FinishReasonPermissionDenied` in the
source), and every other string, the empty one included, to end-turn; it
yields no other finish reason. -/
theorem finishReason_mapping (reason : String) :
    xai2Client.finishReason "stop" = .endTurn ∧
    xai2Client.finishReason "length" = .maxTokens ∧
    xai2Client.finishReason "tool_calls" = .toolUse ∧
    xai2Client.finishReason "function_call" = .toolUse ∧
    xai2Client.finishReason "content_filter" = .permissionDenied ∧
    xai2Client.finishReason "" = .endTurn ∧
    (reason ≠ "stop" → reason ≠ "length" → reason ≠ "tool_calls" →
      reason ≠ "function_call" → reason ≠ "content_filter" →
      xai2Client.finishReason reason = .endTurn) ∧
    (xai2Client.finishReason reason = .endTurn ∨
      xai2Client.finishReason reason = .maxTokens ∨
      xai2Client.finishReason reason = .toolUse ∨
      xai2Client.finishReason reason = .permissionDenied) := by
  refine ⟨by decide, by decide, by decide, by decide, by decide, by decide, ?_, ?_⟩
  · intro h1 h2 h3 h4 h5
    simp [xai2Client.finishReason, h1, h2, h3, h4, h5]
  · unfold xai2Client.finishReason
    split
    · exact Or.inl rfl
    · split
      · exact Or.inr (Or.inl rfl)
      · split
        · exact Or.inr (Or.inr (Or.inl rfl))
        · split
          · exact Or.inr (Or.inr (Or.inr rfl))
          · exact Or.inl rfl

/-! ## C26: content errors of the non-streaming call of `xaiClient` -/

/-- C26.  When the underlying send returns a response without error and the
content of the response is error content, `xaiClient.sendWithParams` returns
no response and the error `xaiContentError{429, content}`; in every other
case it returns the underlying pair unchanged.  Hence a response it returns
together with a nil error never has error content. -/
theorem sendWithParams_content_error (lower : Char → Char)
    (parent : Option ProviderResponse × Option GoError) :
    (∀ response, parent = (some response, none) →
      xaiClient.isErrorContent lower response.content = true →
      xaiClient.sendWithParams lower parent =
        (none, some (.xaiContentError 429 response.content))) ∧
    ((¬ ∃ response, parent = (some response, none) ∧
        xaiClient.isErrorContent lower response.content = true) →
      xaiClient.sendWithParams lower parent = parent) ∧
    (∀ response, xaiClient.sendWithParams lower parent = (some response, none) →
      xaiClient.isErrorContent lower response.content = false) := by
  obtain ⟨resp, err⟩ := parent
  refine ⟨?_, ?_, ?_⟩
  · intro response hp hflag
    cases hp
    simp [xaiClient.sendWithParams, hflag]
  · intro hnot
    cases resp with
    | none => rfl
    | some r =>
      cases err with
      | some e => rfl
      | none =>
        have hclean : ¬ xaiClient.isErrorContent lower r.content = true := fun hflag =>
          hnot ⟨r, rfl, hflag⟩
        simp [xaiClient.sendWithParams, hclean]
  · intro response hres
    cases resp with
    | none =>
      cases err <;> simp [xaiClient.sendWithParams] at hres
    | some r =>
      cases err with
      | some e => simp [xaiClient.sendWithParams] at hres
      | none =>
        by_cases hflag : xaiClient.isErrorContent lower r.content = true
        · simp [xaiClient.sendWithParams, hflag] at hres
        · simp only [xaiClient.sendWithParams, hflag, if_false, Bool.false_eq_true, Prod.mk.injEq,
            Option.some.injEq, and_true] at hres
          rw [← hres]
          simpa using hflag

/-- C26 at a response whose content is a rate-limit message: no response, and
the content error with status 429. -/
theorem sendWithParams_content_error_example :
    xaiClient.sendWithParams Char.toLower
      (some { content := "Rate limit reached, please retry", toolCalls := [],
              usage := { inputTokens := 1, outputTokens := 1,
                         cacheCreationTokens := 0, cacheReadTokens := 0 },
              finishReason := .endTurn }, none) =
      (none, some (.xaiContentError 429 "Rate limit reached, please retry")) :=
  (sendWithParams_content_error Char.toLower _).1 _ rfl (by decide)

/-! ## C22: a delta flagged on its own -/

theorem chunkDeltas_append (xs ys : List Chunk) :
    chunkDeltas (xs ++ ys) = chunkDeltas xs ++ chunkDeltas ys := by
  induction xs with
  | nil => rfl
  | cons c cs ih => simp [chunkDeltas, ih]

theorem mem_deltaSends (texts : List String) (d : String)
    (h : Effect.send (ProviderEvent.delta d) ∈ deltaSends texts) : d ∈ texts := by
  unfold deltaSends at h
  obtain ⟨t, ht, heq⟩ := List.mem_map.mp h
  have hd : t = d := by
    simp only [Effect.send.injEq, ProviderEvent.delta, ProviderEvent.mk.injEq, and_true,
      true_and] at heq
    exact heq
  rw [← hd]
  exact ht

/-- C22.  When a content delta `d` is classified as error content on its own
(the first such delta of the attempt), the attempt is aborted at once.  The
chunk loop has sent only the deltas before it, so `d` is not sent; its result
is the same whatever chunks would follow, so none of them is consumed; and
the iteration is the error block entered with the one content-masked error
`xai2ContentError{200, d}`, that is, what `shouldRetry(attempts, that error)`
decides: up to attempt 8 a retry after `2400 * 2^(attempts-1)` ms, beyond it
the maximum-retries error. -/
theorem flagged_delta_aborts_attempt (x : xai2Client) (lower : Char → Char) (a : Attempt)
    (n : Int) (d : String)
    (hflagged : firstFlagged lower (chunkDeltas a.chunks) = some d) :
    xai2Client.isErrorContent lower d = true ∧
    (xai2Client.processChunks lower a.chunks "").sent =
      deltaSends (cleanDeltas lower (chunkDeltas a.chunks)) ∧
    Effect.send (ProviderEvent.delta d) ∉ (xai2Client.processChunks lower a.chunks "").sent ∧
    (∀ later : List Chunk,
      xai2Client.processChunks lower (a.chunks ++ later) "" =
        xai2Client.processChunks lower a.chunks "") ∧
    (xai2Client.processChunks lower a.chunks "").streamErr =
      some (.xai2ContentError 200 d) ∧
    xai2Client.attemptStep x lower a n =
      xai2Client.handleStreamError x a n
        (.newStreaming n :: deltaSends (cleanDeltas lower (chunkDeltas a.chunks)))
        (.xai2ContentError 200 d) ∧
    (1 ≤ n → n ≤ xai2MaxRetries → a.ctxDone = none →
      xai2Client.attemptStep x lower a n =
        .again (.newStreaming n :: deltaSends (cleanDeltas lower (chunkDeltas a.chunks)) ++
          [.requestClear, .backoffWait (2400 * 2 ^ (n - 1).toNat),
           .requestSetCurrent x.requestInfo])) ∧
    (n > xai2MaxRetries →
      xai2Client.attemptStep x lower a n =
        .done ⟨.newStreaming n :: deltaSends (cleanDeltas lower (chunkDeltas a.chunks)) ++
          [.requestClear, .send (.failed (some xai2MaxRetriesError)), .closeChan],
          .returned⟩) := by
  have hflag := (firstFlagged_mem lower _ d hflagged).2
  have herr : xai2Client.attemptError lower a = some (.xai2ContentError 200 d) := by
    simp [xai2Client.attemptError, hflagged]
  have hstep := attemptStep_eq x lower a n
  rw [herr] at hstep
  refine ⟨hflag, ?_, ?_, ?_, ?_, hstep, ?_, ?_⟩
  · rw [processChunks_eq]
  · rw [processChunks_eq]
    intro hmem
    have hclean := cleanDeltas_clean lower _ d (mem_deltaSends _ d hmem)
    rw [hflag] at hclean
    cases hclean
  · intro later
    rw [processChunks_eq, processChunks_eq, chunkDeltas_append, cleanDeltas_append,
      firstFlagged_append, hflagged]
  · rw [processChunks_eq, hflagged]
    rfl
  · intro h1 h8 hctx
    exact attemptStep_retry x lower a n _ _ herr
      (shouldRetry_content_error n _ h1 h8 rfl) hctx
  · intro hgt
    exact attemptStep_exhausted x lower a n _ herr hgt

/-- C22 at the deltas "I think", " you have", " hit a rate limit, try again" on
attempt 1: the third delta is not sent and the loop goes round again after
2400 ms. -/
theorem flagged_delta_aborts_attempt_example :
    xai2Client.attemptStep exampleClient Char.toLower maskedAttempt 1 =
      .again [.newStreaming 1, .send (.delta "I think"), .send (.delta " you have"),
        .requestClear, .backoffWait 2400, .requestSetCurrent exampleClient.requestInfo] :=
  (flagged_delta_aborts_attempt exampleClient Char.toLower maskedAttempt 1
    " hit a rate limit, try again" (by decide)).2.2.2.2.2.2.1 (by decide) (by decide) rfl

/-! ## C29: the first choice of a completion -/

/-- The conversion of a completion panics exactly when it has no choice. -/
theorem toProviderResponse_isSome (completion : ChatCompletion) :
    (xai2Client.toProviderResponse completion).isSome = true ↔ completion.choices ≠ [] := by
  unfold xai2Client.toProviderResponse
  cases completion.choices <;> simp

/-- C29 fails on a completion without choices.  `toProviderResponse` guards
the read of the content and of the tool calls, but then reads
`completion.Choices[0].FinishReason` and panics, so `SendMessages` panics
too; and the success path of `streamWithParams` reads
`acc.ChatCompletion.Choices[0]` and panics. -/
theorem zero_choices_panic :
    xai2Client.toProviderResponse emptyCompletion = none ∧
    (xai2Client.SendMessages exampleClient (.ok emptyCompletion)).exit = .panicked ∧
    (xai2Client.finishAttempt Char.toLower emptyCompletion "").exit = .panicked ∧
    (xai2Client.streamWithParams exampleClient Char.toLower fun _ => emptyAttempt).exit =
      .panicked := by
  decide

/-! ## C25: content errors in the streaming call of `xaiClient` -/

/-- An attempt of `xaiClient` whose stream ends without error and with a first
choice that has no tool call sends every delta and then a `Complete` with the
accumulated text, whatever that text is: the streaming loop of `xaiClient`
never classifies it. -/
theorem xai_attemptStep_completes (x : xaiClient) (a : Attempt) (n : Int)
    (first : CompletionChoice) (rest : List CompletionChoice)
    (herr : a.err = none) (hacc : a.acc.choices = first :: rest)
    (htools : first.messageToolCalls = []) :
    xaiClient.attemptStep x a n =
      .done ⟨.newStreaming n :: deltaSends (chunkDeltas a.chunks) ++
        [.send (.completed
          { content := concatStrings (chunkDeltas a.chunks),
            toolCalls := [],
            usage := x.base.usage a.acc,
            finishReason := x.base.finishReason first.finishReason }),
         .requestClear, .closeChan], .returned⟩ := by
  rw [xai_attemptStep_eq, herr]
  simp [xaiClient.finishAttempt, hacc, htools, Run.after]

/-- C25 fails on a stream whose whole text is "Rate limit exceeded, please try
again later.".  The text is error content, yet `xaiClient.streamWithParams`
sends it as a `ContentDelta` and then as the content of a `Complete` event;
a single attempt is made and `shouldRetry` is not asked. -/
theorem xai_stream_delivers_error_content :
    xaiClient.isErrorContent Char.toLower "Rate limit exceeded, please try again later." =
      true ∧
    xaiClient.streamWithParams exampleXaiClient (fun _ => rateLimitTextAttempt) 9 =
      { trace := [.newStreaming 1,
          .send (.delta "Rate limit exceeded, please try again later."),
          .send (.completed
            { content := "Rate limit exceeded, please try again later.",
              toolCalls := [],
              usage := { inputTokens := 10, outputTokens := 2,
                         cacheCreationTokens := 0, cacheReadTokens := 0 },
              finishReason := .endTurn }),
          .requestClear, .closeChan],
        exit := .returned } := by
  decide

/-! ## C21: closing the MCP connection -/

/-- The function `runTool` closes the connection exactly once on every path. -/
theorem runTool_closes_once (world : McpWorld) (toolName : String) :
    closeCount (runTool world toolName).trace = 1 := by
  unfold runTool
  split
  · rfl
  · split
    · rfl
    · split <;> rfl

/-- The function `getTools` closes the connection once when both calls
succeed, and not at all when `Initialize` or `ListTools` fails. -/
theorem getTools_closeCount (name : String) (configType : MCPType) (world : GetToolsWorld) :
    closeCount (getTools name configType world).trace =
      match world.initErr, world.listResult with
      | none, .ok _ => 1
      | _, _ => 0 := by
  unfold getTools
  cases world.initErr with
  | some e => rfl
  | none =>
    cases world.listResult with
    | error e => rfl
    | ok names => rfl

/-- C21 fails for `getTools`.  When `Initialize` fails or times out, and when
`ListTools` fails, `getTools` returns before its `defer c.Close()` is
registered: the connection it was handed is never closed. -/
theorem getTools_error_paths_do_not_close :
    getTools "files" .stdio timeoutWorld = { trace := [.clientInitialize], tools := [] } ∧
    closeCount (getTools "files" .stdio timeoutWorld).trace = 0 ∧
    getTools "files" .stdio listErrorWorld =
      { trace := [.clientInitialize, .listTools], tools := [] } ∧
    closeCount (getTools "files" .stdio listErrorWorld).trace = 0 := by
  decide

/-! ## C30: conversion of the conversation -/

/-- The converted conversation has one message per input message, in order,
after the system message when there is one. -/
theorem convertMessages_eq (systemMessage externalPrompt : String) (messages : List Message) :
    xai2Client.convertMessages systemMessage externalPrompt messages =
      (if (if externalPrompt ≠ "" then externalPrompt else systemMessage) ≠ "" then
        [OpenAIMessage.system (if externalPrompt ≠ "" then externalPrompt else systemMessage)]
       else []) ++ messages.map xai2Client.convertMessage := rfl

/-- A Tool-role message is converted into a single message, built from its
first tool result. -/
theorem convertMessage_tool (msg : Message) (result : ToolResult) (rest : List ToolResult)
    (hrole : msg.role = .tool) (hresults : msg.toolResults = result :: rest) :
    xai2Client.convertMessage msg = .tool result.content result.toolCallID := by
  simp [xai2Client.convertMessage, hrole, hresults]

/-- C30 fails on a Tool-role message with two tool results.  The loop over the
results returns in its first iteration, so the converted conversation holds
one tool message, for the first result; the second result is lost. -/
theorem second_tool_result_lost :
    xai2Client.convertMessages "" "" [twoResultsMessage] = [.tool "first" "call_1"] ∧
    (toolMessages (xai2Client.convertMessages "" "" [twoResultsMessage])).length = 1 ∧
    twoResultsMessage.toolResults.length = 2 := by
  decide

/-! ## C23: the text the wrapper classifies -/

theorem consistent_initial : WrapState.initial.Consistent :=
  ⟨rfl, fun d hd => (by cases hd), fun _ => rfl⟩

theorem wrapEvent_consistent (lower : Char → Char) (s : WrapState) (event : ProviderEvent)
    (hs : s.Consistent) : (xaiClient.wrapEvent lower s event).1.Consistent := by
  obtain ⟨hacc, hdeltas, _⟩ := hs
  unfold xaiClient.wrapEvent
  cases htype : event.type with
  | contentDelta =>
    refine ⟨?_, ?_, ?_⟩
    · simp [hacc, concatStrings_append, concatStrings]
    · intro d hd
      rcases List.mem_append.mp hd with h | h
      · exact hdeltas d h
      · have hde : d = event := by simpa using h
        rw [hde]
        exact htype
    · intro h
      cases h
  | complete =>
    simp only []
    split
    · exact consistent_initial
    · split <;> exact consistent_initial
  | error => exact consistent_initial
  | other name => exact ⟨hacc, hdeltas, by assumption⟩

/-- The wrapper at a `Complete` event: it classifies the content of the
response, or the accumulated text when there is no response, and either
replaces everything buffered and the event by one `Error`, or passes the
buffered deltas and the event on; then it starts afresh. -/
theorem wrapLoop_complete (lower : Char → Char) (s : WrapState) (event : ProviderEvent)
    (rest : List ProviderEvent) (hs : s.Consistent) (hcomplete : event.type = .complete) :
    xaiClient.wrapLoop lower s (event :: rest) =
      (if xaiClient.isErrorContent lower (classifiedContent s event) then
        [.failed (some (.xaiContentError 429 (classifiedContent s event)))]
       else s.bufferedEvents ++ [event]) ++
        xaiClient.wrapLoop lower WrapState.initial rest := by
  obtain ⟨_, _, hbuf⟩ := hs
  rw [xaiClient.wrapLoop]
  unfold xaiClient.wrapEvent classifiedContent
  rw [hcomplete]
  simp only []
  by_cases hflag : xaiClient.isErrorContent lower
      (match event.response with
        | some response => response.content
        | none => s.accumulatedContent) = true
  · simp [hflag]
  · cases hb : s.isBuffering with
    | true => simp [hflag]
    | false => simp [hflag, hbuf hb]

theorem wrapEvent_passThrough (lower : Char → Char) (s : WrapState) (event : ProviderEvent)
    (h : event.isPassThrough = true) :
    xaiClient.wrapEvent lower s event = (s, [event]) := by
  unfold ProviderEvent.isPassThrough at h
  unfold xaiClient.wrapEvent
  cases htype : event.type with
  | other name => rfl
  | contentDelta => simp [htype] at h
  | complete => simp [htype] at h
  | error => simp [htype] at h

theorem filter_passThrough_deltas (l : List ProviderEvent)
    (h : ∀ d ∈ l, d.type = .contentDelta) :
    l.filter ProviderEvent.isPassThrough = [] ∧
    l.filter (fun e => !e.isContentDelta) = [] := by
  induction l with
  | nil => exact ⟨rfl, rfl⟩
  | cons d ds ih =>
    have hd := h d (List.mem_cons_self d ds)
    obtain ⟨h1, h2⟩ := ih fun e he => h e (List.mem_cons_of_mem d he)
    have hp : d.isPassThrough = false := by simp [ProviderEvent.isPassThrough, hd]
    have hc : d.isContentDelta = true := by simp [ProviderEvent.isContentDelta, hd]
    constructor
    · rw [List.filter_cons_of_neg (by simp [hp]), h1]
    · rw [List.filter_cons_of_neg (by simp [hc]), h2]

/-- The pass-through events of the output are those of the input, once each and
in the same order, from every state the wrapper reaches. -/
theorem wrapLoop_filter_passThrough (lower : Char → Char) (s : WrapState)
    (events : List ProviderEvent) (hs : s.Consistent) :
    (xaiClient.wrapLoop lower s events).filter ProviderEvent.isPassThrough =
      events.filter ProviderEvent.isPassThrough := by
  induction events generalizing s with
  | nil =>
    rw [xaiClient.wrapLoop]
    split
    · exact (filter_passThrough_deltas _ hs.2.1).1
    · rfl
  | cons e es ih =>
    cases htype : e.type with
    | other name =>
      have hp : e.isPassThrough = true := by simp [ProviderEvent.isPassThrough, htype]
      rw [xaiClient.wrapLoop, wrapEvent_passThrough lower s e hp]
      simp [List.filter, hp, ih s hs]
    | contentDelta =>
      have hp : e.isPassThrough = false := by simp [ProviderEvent.isPassThrough, htype]
      have hnext := wrapEvent_consistent lower s e hs
      rw [xaiClient.wrapLoop]
      have hout : (xaiClient.wrapEvent lower s e).2 = [] := by
        simp [xaiClient.wrapEvent, htype]
      rw [hout]
      simp [List.filter, hp, ih _ hnext]
    | error =>
      have hp : e.isPassThrough = false := by simp [ProviderEvent.isPassThrough, htype]
      have hstep : xaiClient.wrapEvent lower s e = (WrapState.initial, [e]) := by
        simp [xaiClient.wrapEvent, htype]
      rw [xaiClient.wrapLoop, hstep]
      simp [List.filter, hp, ih _ consistent_initial]
    | complete =>
      have hp : e.isPassThrough = false := by simp [ProviderEvent.isPassThrough, htype]
      rw [wrapLoop_complete lower s e es hs htype, List.filter_append,
        ih _ consistent_initial]
      have hhead : (if xaiClient.isErrorContent lower (classifiedContent s e) then
            [ProviderEvent.failed (some (.xaiContentError 429 (classifiedContent s e)))]
          else s.bufferedEvents ++ [e]).filter ProviderEvent.isPassThrough = [] := by
        split
        · rfl
        · rw [List.filter_append, (filter_passThrough_deltas _ hs.2.1).1]
          simp [List.filter, hp]
      rw [hhead]
      simp [List.filter, hp]

/-- The events of the output other than content deltas are those of the input,
one for one and in the same order, a `Complete` possibly replaced by an
`Error`. -/
theorem wrapLoop_wrappedAs (lower : Char → Char) (s : WrapState)
    (events : List ProviderEvent) (hs : s.Consistent) :
    List.Forall₂ WrappedAs
      (events.filter fun e => !e.isContentDelta)
      ((xaiClient.wrapLoop lower s events).filter fun e => !e.isContentDelta) := by
  induction events generalizing s with
  | nil =>
    rw [xaiClient.wrapLoop]
    split
    · rw [(filter_passThrough_deltas _ hs.2.1).2]
      exact List.Forall₂.nil
    · exact List.Forall₂.nil
  | cons e es ih =>
    cases htype : e.type with
    | other name =>
      have hp : e.isPassThrough = true := by simp [ProviderEvent.isPassThrough, htype]
      have hd : e.isContentDelta = false := by simp [ProviderEvent.isContentDelta, htype]
      rw [xaiClient.wrapLoop, wrapEvent_passThrough lower s e hp]
      simp only [List.filter, hd, Bool.not_false, List.singleton_append]
      exact List.Forall₂.cons (Or.inr ⟨by rw [htype]; simp, rfl⟩) (ih s hs)
    | contentDelta =>
      have hd : e.isContentDelta = true := by simp [ProviderEvent.isContentDelta, htype]
      have hnext := wrapEvent_consistent lower s e hs
      rw [xaiClient.wrapLoop]
      have hout : (xaiClient.wrapEvent lower s e).2 = [] := by
        simp [xaiClient.wrapEvent, htype]
      rw [hout]
      simp only [List.filter, hd, Bool.not_true, List.nil_append]
      exact ih _ hnext
    | error =>
      have hd : e.isContentDelta = false := by simp [ProviderEvent.isContentDelta, htype]
      have hstep : xaiClient.wrapEvent lower s e = (WrapState.initial, [e]) := by
        simp [xaiClient.wrapEvent, htype]
      rw [xaiClient.wrapLoop, hstep]
      simp only [List.filter, hd, Bool.not_false, List.singleton_append]
      exact List.Forall₂.cons (Or.inr ⟨by rw [htype]; simp, rfl⟩) (ih _ consistent_initial)
    | complete =>
      have hd : e.isContentDelta = false := by simp [ProviderEvent.isContentDelta, htype]
      rw [wrapLoop_complete lower s e es hs htype, List.filter_append]
      have hin : (e :: es).filter (fun e => !e.isContentDelta) =
          e :: es.filter (fun e => !e.isContentDelta) := by
        simp [List.filter, hd]
      rw [hin]
      by_cases hflag : xaiClient.isErrorContent lower (classifiedContent s e) = true
      · simp only [hflag, if_true]
        exact List.Forall₂.cons (Or.inl ⟨htype, Or.inr rfl⟩) (ih _ consistent_initial)
      · simp only [hflag, if_false, Bool.false_eq_true, List.filter_append,
          (filter_passThrough_deltas _ hs.2.1).2, List.nil_append]
        have hone : [e].filter (fun e => !e.isContentDelta) = [e] := by
          simp [List.filter, hd]
        rw [hone]
        exact List.Forall₂.cons (Or.inl ⟨htype, Or.inl rfl⟩) (ih _ consistent_initial)

/-- C24.  An event whose type is not `ContentDelta`, `Complete` or `Error` is
forwarded unchanged as soon as it is received: it is the next event sent,
ahead of every buffered content delta, and the buffer is left as it was.
Over a whole base-event sequence the pass-through events of the output are
those of the input, once each and in the same order; and the events other
than content deltas keep their order, pass-through and `Error` events
unchanged, each `Complete` as it is or replaced by one `Error`. -/
theorem pass_through_events_forwarded (lower : Char → Char) (s : WrapState)
    (event : ProviderEvent) (rest events : List ProviderEvent)
    (hother : event.isPassThrough = true) :
    xaiClient.wrapEvent lower s event = (s, [event]) ∧
    xaiClient.wrapLoop lower s (event :: rest) = event :: xaiClient.wrapLoop lower s rest ∧
    (xaiClient.wrapStreamEvents lower events).filter ProviderEvent.isPassThrough =
      events.filter ProviderEvent.isPassThrough ∧
    List.Forall₂ WrappedAs
      (events.filter fun e => !e.isContentDelta)
      ((xaiClient.wrapStreamEvents lower events).filter fun e => !e.isContentDelta) := by
  have hstep := wrapEvent_passThrough lower s event hother
  refine ⟨hstep, ?_, wrapLoop_filter_passThrough lower _ events consistent_initial,
    wrapLoop_wrappedAs lower _ events consistent_initial⟩
  rw [xaiClient.wrapLoop, hstep]
  rfl

/-- C24 at a tool-call event: received ahead of "Hello", " world" and their
`Complete` it is sent first; received between the two deltas it is the one
pass-through event of the output. -/
theorem pass_through_events_forwarded_example :
    xaiClient.wrapLoop Char.toLower WrapState.initial (toolUseEvent :: helloBaseEvents) =
      toolUseEvent :: xaiClient.wrapLoop Char.toLower WrapState.initial helloBaseEvents ∧
    (xaiClient.wrapStreamEvents Char.toLower
      (.delta "Hello" :: toolUseEvent :: helloBaseEvents.tail)).filter
        ProviderEvent.isPassThrough = [toolUseEvent] :=
  have h := pass_through_events_forwarded Char.toLower WrapState.initial toolUseEvent
    helloBaseEvents (.delta "Hello" :: toolUseEvent :: helloBaseEvents.tail) rfl
  ⟨h.2.1, h.2.2.1⟩

end Opencode
